import Mathlib

/-!
Verification of the employee-management seed/migration script and the Vercel
request adapter (shallow embedding of `prisma/seed.ts` and `api/...` handler).

JavaScript/JSON values are embedded as the mutual inductive `JValue`;
JavaScript `undefined` (absent object property) is represented by `Option`
at every property access.  The MongoDB collection state is a list of ordered
documents (`Doc`), and `updateOne` with an equality filter, a `$set` update
document and `upsert: true` is embedded by `upsertDoc`: it updates the first
document whose key field equals the filter value in place (existing fields
updated in position, new fields appended in `$set` order), or appends a new
document built from the filter's equality field with `$set` applied.
The wall clock is held constant during one run and passed as the `now`
parameter; `new Date()` yields `now`.
-/

set_option maxRecDepth 20000

namespace EmpMgmt

/-- The payload of a JavaScript `Date`: constructed from an ISO-like string,
from a millisecond count (`new Date()` uses the current time in ms), or
invalid.  The representation is symbolic but deterministic. -/
inductive DateVal where
  | parsed (s : String)
  | millis (n : Int)
  | invalid
deriving DecidableEq

mutual

/-- JSON / JavaScript runtime values as manipulated by the seed script.
`num` carries the (integral) numeric value of a JS number; `nan` and `inf`
cover the non-finite numbers `parseInt` can produce. -/
inductive JValue where
  | null
  | bool (b : Bool)
  | num (n : Int)
  | nan
  | inf (neg : Bool)
  | str (s : String)
  | arr (elems : JArr)
  | obj (fields : JObj)
  | date (d : DateVal)

/-- A JSON array (spine of `JValue`s). -/
inductive JArr where
  | nil
  | cons (hd : JValue) (tl : JArr)

/-- A JSON object: an ordered sequence of key/value fields. -/
inductive JObj where
  | nil
  | cons (key : String) (val : JValue) (tl : JObj)

end

mutual

/-- Boolean structural equality on `JValue`. -/
def JValue.beq : JValue → JValue → Bool
  | .null, .null => true
  | .bool a, .bool b => a == b
  | .num a, .num b => a == b
  | .nan, .nan => true
  | .inf a, .inf b => a == b
  | .str a, .str b => a == b
  | .date a, .date b => a == b
  | .arr a, .arr b => JArr.beq a b
  | .obj a, .obj b => JObj.beq a b
  | _, _ => false

/-- Boolean structural equality on `JArr`. -/
def JArr.beq : JArr → JArr → Bool
  | .nil, .nil => true
  | .cons x xs, .cons y ys => JValue.beq x y && JArr.beq xs ys
  | _, _ => false

/-- Boolean structural equality on `JObj`. -/
def JObj.beq : JObj → JObj → Bool
  | .nil, .nil => true
  | .cons k v tl, .cons k2 v2 tl2 => k == k2 && JValue.beq v v2 && JObj.beq tl tl2
  | _, _ => false

end

mutual

theorem jvalueEqOfBeq : ∀ {a b : JValue}, JValue.beq a b = true → a = b
  | .null, .null, _ => rfl
  | .bool _, .bool _, h => by simp [JValue.beq] at h; simp [h]
  | .num _, .num _, h => by simp [JValue.beq] at h; simp [h]
  | .nan, .nan, _ => rfl
  | .inf _, .inf _, h => by simp [JValue.beq] at h; simp [h]
  | .str _, .str _, h => by simp [JValue.beq] at h; simp [h]
  | .date _, .date _, h => by simp [JValue.beq] at h; simp [h]
  | .arr _, .arr _, h => by
      simp only [JValue.beq] at h
      simp [jarrEqOfBeq h]
  | .obj _, .obj _, h => by
      simp only [JValue.beq] at h
      simp [jobjEqOfBeq h]

theorem jarrEqOfBeq : ∀ {a b : JArr}, JArr.beq a b = true → a = b
  | .nil, .nil, _ => rfl
  | .cons _ _, .cons _ _, h => by
      simp only [JArr.beq, Bool.and_eq_true] at h
      simp [jvalueEqOfBeq h.1, jarrEqOfBeq h.2]

theorem jobjEqOfBeq : ∀ {a b : JObj}, JObj.beq a b = true → a = b
  | .nil, .nil, _ => rfl
  | .cons _ _ _, .cons _ _ _, h => by
      simp only [JObj.beq, Bool.and_eq_true] at h
      obtain ⟨⟨hk, hv⟩, ht⟩ := h
      simp only [beq_iff_eq] at hk
      simp [hk, jvalueEqOfBeq hv, jobjEqOfBeq ht]

end

mutual

theorem jvalueBeqRefl : ∀ a : JValue, JValue.beq a a = true
  | .null => rfl
  | .bool _ => by simp [JValue.beq]
  | .num _ => by simp [JValue.beq]
  | .nan => rfl
  | .inf _ => by simp [JValue.beq]
  | .str _ => by simp [JValue.beq]
  | .date _ => by simp [JValue.beq]
  | .arr a => by simp only [JValue.beq]; exact jarrBeqRefl a
  | .obj a => by simp only [JValue.beq]; exact jobjBeqRefl a

theorem jarrBeqRefl : ∀ a : JArr, JArr.beq a a = true
  | .nil => rfl
  | .cons x xs => by
      simp only [JArr.beq, Bool.and_eq_true]
      exact ⟨jvalueBeqRefl x, jarrBeqRefl xs⟩

theorem jobjBeqRefl : ∀ a : JObj, JObj.beq a a = true
  | .nil => rfl
  | .cons k v tl => by
      simp only [JObj.beq, Bool.and_eq_true]
      exact ⟨⟨by simp, jvalueBeqRefl v⟩, jobjBeqRefl tl⟩

end

instance : DecidableEq JValue := fun a b =>
  if h : JValue.beq a b = true then .isTrue (jvalueEqOfBeq h)
  else .isFalse (fun he => h (he ▸ jvalueBeqRefl a))

instance : DecidableEq JArr := fun a b =>
  if h : JArr.beq a b = true then .isTrue (jarrEqOfBeq h)
  else .isFalse (fun he => h (he ▸ jarrBeqRefl a))

instance : DecidableEq JObj := fun a b =>
  if h : JObj.beq a b = true then .isTrue (jobjEqOfBeq h)
  else .isFalse (fun he => h (he ▸ jobjBeqRefl a))

/-- Convert a Lean list to a `JArr`. -/
def JArr.ofList : List JValue → JArr
  | [] => .nil
  | x :: xs => .cons x (JArr.ofList xs)

/-- Convert a `JArr` to a Lean list. -/
def JArr.toList : JArr → List JValue
  | .nil => []
  | .cons x xs => x :: JArr.toList xs

/-- Convert a Lean association list to a `JObj`. -/
def JObj.ofList : List (String × JValue) → JObj
  | [] => .nil
  | (k, v) :: tl => .cons k v (JObj.ofList tl)

/-- Convert a `JObj` to a Lean association list. -/
def JObj.toList : JObj → List (String × JValue)
  | .nil => []
  | .cons k v tl => (k, v) :: JObj.toList tl

/-- Whether an object has an own property named `k` (the JS `in` operator on
a plain JSON object). -/
def JObj.hasKey (fs : JObj) (k : String) : Bool :=
  match fs with
  | .nil => false
  | .cons k2 _ tl => k2 == k || tl.hasKey k

/-- Property read on a `JObj` (first field with the given name). -/
def JObj.lookup (fs : JObj) (k : String) : Option JValue :=
  match fs with
  | .nil => none
  | .cons k2 v tl => if k2 = k then some v else tl.lookup k

/-- JS property access `base.k` for a non-null base: `none` models
`undefined` (absent property, or access on a non-object primitive, which JS
boxes).  Access on a null base throws a TypeError in JS; that case is
modelled where it occurs — `seedLoop` aborts on a null record before any
property of it is read (`getF` is never consulted on null there, and the
other call sites only receive non-null values). -/
def getF (r : JValue) (k : String) : Option JValue :=
  match r with
  | .obj fs => fs.lookup k
  | _ => none

/-- JS truthiness of a value (`undefined` is handled at the `Option` layer). -/
def jsTruthy : JValue → Bool
  | .null => false
  | .bool b => b
  | .num n => n != 0
  | .nan => false
  | .inf _ => true
  | .str s => s != ""
  | .arr _ => true
  | .obj _ => true
  | .date _ => true

example : jsTruthy (.num 0) = false := by decide

example : JObj.hasKey (.ofList [("a", .num 1), ("b", .null)]) "b" = true := by decide

/-- Numeric value of the longest leading run of decimal digits; `none` when
there is no leading digit. -/
def decDigitsValue (cs : List Char) : Option Nat :=
  let ds := cs.takeWhile Char.isDigit
  if ds.isEmpty then none
  else some (ds.foldl (fun acc c => acc * 10 + (c.toNat - 48)) 0)

/-- `parseInt(s, 10)` up to (but not including) the conversion of the exact
mathematical integer to a binary64 number: leading whitespace is skipped, an
optional sign is read, and the longest run of decimal digits is interpreted
in base 10; `none` models `NaN` (no digits found). -/
def jsParseInt (s : String) : Option Int :=
  let cs := s.toList.dropWhile Char.isWhitespace
  match cs with
  | '-' :: rest => (decDigitsValue rest).map (fun n => -(n : Int))
  | '+' :: rest => (decDigitsValue rest).map (fun n => (n : Int))
  | rest => (decDigitsValue rest).map (fun n => (n : Int))

/-- Smallest `e` (searched up to the given fuel) with `m < 2 ^ (53 + e)`:
the number of excess low bits beyond a 53-bit significand.  Fuel `1024`
covers every magnitude below the binary64 overflow threshold. -/
def excessBits (m : Nat) : Nat → Nat → Nat
  | 0, e => e
  | fuel + 1, e => if m < 2 ^ (53 + e) then e else excessBits m fuel (e + 1)

/-- Round a natural number to the nearest binary64-representable value
(round half to even): exact up to `2 ^ 53`, otherwise the 53-bit
significand is obtained by rounding off the excess low bits (meaningful for
magnitudes below `2 ^ 1024`; larger inputs overflow and are screened off
before rounding). -/
def roundNatToDouble (m : Nat) : Nat :=
  if m ≤ 2 ^ 53 then m
  else
    let k := excessBits m 1024 0
    let q := m / 2 ^ k
    let r := m % 2 ^ k
    let half := 2 ^ (k - 1)
    if r < half then q * 2 ^ k
    else if half < r then (q + 1) * 2 ^ k
    else (if q % 2 = 0 then q else q + 1) * 2 ^ k

/-- Round an integer to the nearest binary64-representable value. -/
def roundIntToDouble (n : Int) : Int :=
  if n < 0 then -(roundNatToDouble n.natAbs : Int) else (roundNatToDouble n.natAbs : Int)

/-- Conversion of an exact integer to a JS number: rounded to the nearest
binary64 value, overflowing to `Infinity` at and beyond `2 ^ 1024` (also
when rounding itself carries up to `2 ^ 1024`). -/
def numberFromInt (n : Int) : JValue :=
  if 2 ^ 1024 ≤ n.natAbs then .inf (decide (n < 0))
  else
    let r := roundIntToDouble n
    if 2 ^ 1024 ≤ r.natAbs then .inf (decide (n < 0)) else .num r

/-- `parseInt(x, 10)` as applied to a wrapper payload.  Extended JSON
wrappers carry strings; for a string the digits are parsed and converted to
a JS number.  A numeric payload round-trips through its decimal string; the
remaining coercions (`null`, booleans, arrays, objects stringify first) do
not produce a leading digit for the export shapes in question and are
modelled as `NaN`. -/
def jsParseIntJ : JValue → JValue
  | .str s =>
    match jsParseInt s with
    | some n => numberFromInt n
    | none => .nan
  | .num n => .num n
  | _ => .nan

/-- `new Date(x)` with one argument: a string is parsed as a date, a `Date`
is cloned, a number is milliseconds since epoch, `null` and booleans coerce
to 0/1 ms; the remaining inputs give an invalid date. -/
def jsNewDate : JValue → JValue
  | .str s => .date (.parsed s)
  | .date d => .date d
  | .num n => .date (.millis n)
  | .null => .date (.millis 0)
  | .bool b => .date (.millis (if b then 1 else 0))
  | _ => .date .invalid

mutual

/-- `parseMongoDBExtendedJSON` from the seed script: on an object, the
wrapper keys are probed in source order (the JS `in` operator) and the
matching wrapper is converted (`$date` via `new Date`, `$numberLong` and
`$numberInt` via `parseInt(_, 10)`, `$oid` to its payload); otherwise the
object's fields are converted recursively.  Arrays recurse elementwise
(`Array.isArray` is checked after the wrapper probes, which never fire on an
array).  A `Date` value would be rebuilt by the `for ... in` loop as an
empty object (no own enumerable properties); every other non-object value
is returned unchanged. -/
def parseMongoDBExtendedJSON : JValue → JValue
  | .obj fs =>
    if fs.hasKey "$date" then jsNewDate ((fs.lookup "$date").getD .null)
    else if fs.hasKey "$numberLong" then jsParseIntJ ((fs.lookup "$numberLong").getD .null)
    else if fs.hasKey "$numberInt" then jsParseIntJ ((fs.lookup "$numberInt").getD .null)
    else if fs.hasKey "$oid" then (fs.lookup "$oid").getD .null
    else .obj (parseObjFields fs)
  | .arr xs => .arr (parseArrElems xs)
  | .date _ => .obj .nil
  | v => v

/-- Elementwise recursion of `parseMongoDBExtendedJSON` over an array. -/
def parseArrElems : JArr → JArr
  | .nil => .nil
  | .cons x xs => .cons (parseMongoDBExtendedJSON x) (parseArrElems xs)

/-- Fieldwise recursion of `parseMongoDBExtendedJSON` over an object. -/
def parseObjFields : JObj → JObj
  | .nil => .nil
  | .cons k v tl => .cons k (parseMongoDBExtendedJSON v) (parseObjFields tl)

end

/-- JavaScript `String.prototype.trim()`: strip leading and trailing
whitespace. -/
def jsTrim (s : String) : String :=
  ⟨((s.toList.dropWhile Char.isWhitespace).reverse.dropWhile Char.isWhitespace).reverse⟩

/-- The filesystem visible to the script: a path either holds text content
or does not exist (`fs.existsSync` false). -/
abbrev FileSys : Type := String → Option String

/-- `JSON.parse`: `none` models a thrown `SyntaxError` on invalid input. -/
abbrev JsonParse : Type := String → Option JValue

/-- Structured console output of the script. -/
inductive LogEntry where
  | seeding (coll : String)
  | warnFileNotFound (path : String)
  | warnFileEmpty (path : String)
  | errorParseFile (path : String)
  | noRecords (coll : String)
  | recordError (coll : String) (key : Option JValue)
  | summary (coll : String) (succ total : Nat)
  | connected
  | seededOk
  | errorSeeding
deriving DecidableEq

/-- `Array.isArray(data) ? data : [data]`. -/
def toRecordArray (j : JValue) : List JValue :=
  match j with
  | .arr xs => xs.toList
  | v => [v]

/-- `parseJSON` from the seed script: a missing file or whitespace-only
content yields a warning and no records, a `JSON.parse` failure yields an
error log and no records; otherwise the data is wrapped into an array if
needed and every item is normalized by `parseMongoDBExtendedJSON`. -/
def parseJSON (jp : JsonParse) (fs : FileSys) (filePath : String) :
    List JValue × List LogEntry :=
  match fs filePath with
  | none => ([], [.warnFileNotFound filePath])
  | some content =>
    if jsTrim content = "" then ([], [.warnFileEmpty filePath])
    else
      match jp content with
      | none => ([], [.errorParseFile filePath])
      | some data => ((toRecordArray data).map parseMongoDBExtendedJSON, [])

example : parseMongoDBExtendedJSON (.obj (.cons "$numberInt" (.str "5") .nil)) = .num 5 := by
  decide

example :
    parseMongoDBExtendedJSON (.obj (.cons "$date" (.str "2024-10-04T19:48:57.118Z") .nil)) =
      .date (.parsed "2024-10-04T19:48:57.118Z") := by
  decide

example :
    parseMongoDBExtendedJSON
        (.arr (.cons (.obj (.cons "$numberLong" (.str "1728074791") .nil)) .nil)) =
      .arr (.cons (.num 1728074791) .nil) := by
  decide

/-- A stored MongoDB document: an ordered sequence of field/value pairs. -/
abbrev Doc : Type := List (String × JValue)

/-- The field names of a document, in order. -/
def keysOf (d : Doc) : List String := d.map Prod.fst

/-- Value of the first field named `k` in a document. -/
def lookupField (k : String) : Doc → Option JValue
  | [] => none
  | (k2, v) :: rest => if k2 = k then some v else lookupField k rest

/-- Apply a `$set` update document `f` to a stored document: existing fields
are updated in place (first occurrence), fields of `f` not present in the
document are appended in `f`'s order. -/
def applySet (f : Doc) : Doc → Doc
  | [] => f
  | (k, w) :: d => (k, (lookupField k f).getD w) :: applySet (f.filter (fun p => p.1 ≠ k)) d

/-- `collection.updateOne({key: v}, {$set: f}, {upsert: true})`: the first
document whose `key` field equals `v` is updated with `$set: f`; if none
matches, a new document is created from the filter's equality field and
`$set` is applied to it. -/
def upsertDoc (k : String) (v : JValue) (f : Doc) : List Doc → List Doc
  | [] => [applySet f [(k, v)]]
  | d :: ds =>
    if lookupField k d = some v then applySet f d :: ds
    else d :: upsertDoc k v f ds

/-- A sequence of upserts (filter value, `$set` document) applied in order
with a common key field. -/
def runUpserts (k : String) (us : List (JValue × Doc)) (c : List Doc) : List Doc :=
  us.foldl (fun c u => upsertDoc k u.1 u.2 c) c

/-- A field copied verbatim from the source record: the MongoDB driver
serializes a JS `undefined` property as BSON null by default. -/
def raw (r : JValue) (k : String) : JValue := (getF r k).getD .null

/-- `x.k || d`: the default replaces an absent or falsy property. -/
def orDefault (r : JValue) (k : String) (d : JValue) : JValue :=
  match getF r k with
  | some v => if jsTruthy v then v else d
  | none => d

/-- `x.k !== undefined ? x.k : d`: the default applies only to an absent
property. -/
def ifDefined (r : JValue) (k : String) (d : JValue) : JValue :=
  (getF r k).getD d

/-- `x.k ? new Date(x.k) : d`: a truthy property is converted by
`new Date`, otherwise the default is stored. -/
def dateOr (r : JValue) (k : String) (d : JValue) : JValue :=
  match getF r k with
  | some v => if jsTruthy v then jsNewDate v else d
  | none => d

/-- `new Date()` at the (run-constant) current time `now`. -/
def nowDate (now : Int) : JValue := .date (.millis now)

/-- The `$set` document built by `seedCounter` for one source record. -/
def counterSetDoc (now : Int) (r : JValue) : Doc :=
  [("_id", raw r "_id"),
   ("key", raw r "key"),
   ("value", raw r "value"),
   ("createdAt", dateOr r "createdAt" (nowDate now)),
   ("updatedAt", dateOr r "updatedAt" (nowDate now))]

/-- The `$set` document built by `seedDepartmentParent` for one record. -/
def departmentParentSetDoc (now : Int) (r : JValue) : Doc :=
  [("_id", raw r "_id"),
   ("departmentId", raw r "departmentId"),
   ("departmentName", raw r "departmentName"),
   ("departmentLogo", orDefault r "departmentLogo" .null),
   ("description", orDefault r "description" .null),
   ("leadContact", orDefault r "leadContact" .null),
   ("leadEmail", orDefault r "leadEmail" .null),
   ("leadPhone", orDefault r "leadPhone" .null),
   ("createdAt", dateOr r "createdAt" (nowDate now)),
   ("updatedAt", dateOr r "updatedAt" (nowDate now))]

/-- The `$set` document built by `seedDepartmentChild` for one record. -/
def departmentChildSetDoc (now : Int) (r : JValue) : Doc :=
  [("_id", raw r "_id"),
   ("childDeptId", raw r "childDeptId"),
   ("departmentName", raw r "departmentName"),
   ("parentDeptId", raw r "parentDeptId"),
   ("description", orDefault r "description" .null),
   ("createdAt", dateOr r "createdAt" (nowDate now)),
   ("updatedAt", dateOr r "updatedAt" (nowDate now))]

/-- The `$set` document built by `seedEmployee` for one source record. -/
def employeeSetDoc (now : Int) (r : JValue) : Doc :=
  [("_id", raw r "_id"),
   ("employeeId", raw r "employeeId"),
   ("employeeName", raw r "employeeName"),
   ("contactNo", orDefault r "contactNo" .null),
   ("emailId", orDefault r "emailId" .null),
   ("deptId", orDefault r "deptId" .null),
   ("department", orDefault r "department" .null),
   ("password", orDefault r "password" .null),
   ("gender", orDefault r "gender" .null),
   ("role", orDefault r "role" .null),
   ("title", orDefault r "title" .null),
   ("avatarUrl", orDefault r "avatarUrl" .null),
   ("location", orDefault r "location" .null),
   ("timezone", orDefault r "timezone" .null),
   ("employmentType", orDefault r "employmentType" .null),
   ("managerId", orDefault r "managerId" .null),
   ("hireDate", dateOr r "hireDate" .null),
   ("bio", orDefault r "bio" .null),
   ("about", orDefault r "about" .null),
   ("notes", orDefault r "notes" .null),
   ("tags", orDefault r "tags" (.arr .nil)),
   ("skills", orDefault r "skills" (.arr .nil)),
   ("certifications", orDefault r "certifications" (.arr .nil)),
   ("interests", orDefault r "interests" (.arr .nil)),
   ("languages", orDefault r "languages" (.arr .nil)),
   ("socialLinks", orDefault r "socialLinks" .null),
   ("workPreferences", orDefault r "workPreferences" .null),
   ("availability", orDefault r "availability" .null),
   ("preferences", orDefault r "preferences" .null),
   ("performanceSnapshot", orDefault r "performanceSnapshot" .null),
   ("documents", orDefault r "documents" .null),
   ("customFields", orDefault r "customFields" .null),
   ("createdAt", dateOr r "createdAt" (nowDate now)),
   ("updatedAt", dateOr r "updatedAt" (nowDate now)),
   ("isActive", ifDefined r "isActive" (.bool true)),
   ("lastActiveAt", dateOr r "lastActiveAt" .null)]

/-- The `$set` document built by `seedProject` for one source record. -/
def projectSetDoc (now : Int) (r : JValue) : Doc :=
  [("_id", raw r "_id"),
   ("projectId", raw r "projectId"),
   ("projectName", raw r "projectName"),
   ("clientName", orDefault r "clientName" .null),
   ("clientIndustry", orDefault r "clientIndustry" .null),
   ("startDate", dateOr r "startDate" .null),
   ("endDate", dateOr r "endDate" .null),
   ("leadByEmpId", orDefault r "leadByEmpId" .null),
   ("sponsorEmpId", orDefault r "sponsorEmpId" .null),
   ("contactPerson", orDefault r "contactPerson" .null),
   ("contactNo", orDefault r "contactNo" .null),
   ("emailId", orDefault r "emailId" .null),
   ("contactTitle", orDefault r "contactTitle" .null),
   ("contactNotes", orDefault r "contactNotes" .null),
   ("overview", orDefault r "overview" .null),
   ("scope", orDefault r "scope" .null),
   ("successMetrics", orDefault r "successMetrics" .null),
   ("status", orDefault r "status" (.str "draft")),
   ("statusReason", orDefault r "statusReason" .null),
   ("statusHistory", orDefault r "statusHistory" .null),
   ("timeline", orDefault r "timeline" .null),
   ("milestones", orDefault r "milestones" .null),
   ("categories", orDefault r "categories" (.arr .nil)),
   ("tags", orDefault r "tags" (.arr .nil)),
   ("focusAreas", orDefault r "focusAreas" (.arr .nil)),
   ("blockers", orDefault r "blockers" .null),
   ("risks", orDefault r "risks" .null),
   ("riskRegister", orDefault r "riskRegister" .null),
   ("budget", orDefault r "budget" .null),
   ("financials", orDefault r "financials" .null),
   ("resourcesPlan", orDefault r "resourcesPlan" .null),
   ("readinessChecklist", orDefault r "readinessChecklist" .null),
   ("readinessScore", orDefault r "readinessScore" .null),
   ("approvalStatus", orDefault r "approvalStatus" (.str "draft")),
   ("approvalRequestedAt", dateOr r "approvalRequestedAt" .null),
   ("approvalRequestedBy", orDefault r "approvalRequestedBy" .null),
   ("approvalResolvedAt", dateOr r "approvalResolvedAt" .null),
   ("approvalResolvedBy", orDefault r "approvalResolvedBy" .null),
   ("approvalReason", orDefault r "approvalReason" .null),
   ("approvalNotes", orDefault r "approvalNotes" .null),
   ("reviewerComments", orDefault r "reviewerComments" .null),
   ("progress", orDefault r "progress" .null),
   ("health", orDefault r "health" .null),
   ("documents", orDefault r "documents" .null),
   ("externalLinks", orDefault r "externalLinks" .null),
   ("aiGeneratedInsights", orDefault r "aiGeneratedInsights" .null),
   ("cmsContentRefs", orDefault r "cmsContentRefs" (.arr .nil)),
   ("lastSyncedAt", dateOr r "lastSyncedAt" .null),
   ("stageGate", orDefault r "stageGate" .null),
   ("governance", orDefault r "governance" .null),
   ("communicationPlan", orDefault r "communicationPlan" .null),
   ("createdAt", dateOr r "createdAt" (nowDate now)),
   ("updatedAt", dateOr r "updatedAt" (nowDate now)),
   ("archivedAt", dateOr r "archivedAt" .null)]

/-- The `$set` document built by `seedProjectEmployee` for one record. -/
def projectEmployeeSetDoc (now : Int) (r : JValue) : Doc :=
  [("_id", raw r "_id"),
   ("empProjectId", raw r "empProjectId"),
   ("projectId", raw r "projectId"),
   ("empId", raw r "empId"),
   ("assignedDate", dateOr r "assignedDate" .null),
   ("role", orDefault r "role" .null),
   ("isActive", ifDefined r "isActive" (.bool true)),
   ("allocationPct", orDefault r "allocationPct" .null),
   ("billable", ifDefined r "billable" .null),
   ("billingRate", orDefault r "billingRate" .null),
   ("costRate", orDefault r "costRate" .null),
   ("notes", orDefault r "notes" .null),
   ("responsibilities", orDefault r "responsibilities" (.arr .nil)),
   ("skillsApplied", orDefault r "skillsApplied" (.arr .nil)),
   ("toolsUsed", orDefault r "toolsUsed" (.arr .nil)),
   ("schedule", orDefault r "schedule" .null),
   ("contribution", orDefault r "contribution" .null),
   ("createdAt", dateOr r "createdAt" (nowDate now)),
   ("updatedAt", dateOr r "updatedAt" (nowDate now)),
   ("unassignedAt", dateOr r "unassignedAt" .null)]

/-- The per-record loop common to every seed function: each record is
upserted by its business key inside a `try`; a failure (the environment
oracle `err` says whether the `updateOne` for the record at a given index
throws) is logged with the record's business key and the loop continues
with the next record; successes are counted.  A record that is JSON null is
special: building the filter document reads a property of `null`, which
throws a TypeError inside the `try`, and the catch block's log interpolation
reads the same property and throws again — uncaught — so the loop aborts at
that record with no log line for it (last component `true`) and the error
propagates to `main`.  Returns the updated collection, the success count,
the log lines in order, and the abort flag. -/
def seedLoop (collName keyField : String) (setDoc : JValue → Doc) (err : Nat → Bool) :
    List JValue → Nat → List Doc → List Doc × Nat × List LogEntry × Bool
  | [], _, coll => (coll, 0, [], false)
  | r :: rs, i, coll =>
    if r = JValue.null then
      (coll, 0, [], true)
    else if err i then
      let rest := seedLoop collName keyField setDoc err rs (i + 1) coll
      (rest.1, rest.2.1, .recordError collName (getF r keyField) :: rest.2.2.1,
        rest.2.2.2)
    else
      let coll1 := upsertDoc keyField (raw r keyField) (setDoc r) coll
      let rest := seedLoop collName keyField setDoc err rs (i + 1) coll1
      (rest.1, rest.2.1 + 1, rest.2.2.1, rest.2.2.2)

/-- The hard-coded export directory of the seed script. -/
def JSON_DIR : String :=
  "/Users/arnob_t78/Papers/Project Doc/db-migration/employee-management"

/-- One collection's seed step: log the start banner, read and normalize the
JSON export file, return unchanged with a notice when no records were read,
otherwise run the upsert loop and log the success/total summary.  When the
loop aborts (null record), the summary line is never printed and the abort
propagates (last component `true`). -/
def seedStep (collName fileName keyField : String) (setDoc : JValue → Doc)
    (jp : JsonParse) (fs : FileSys) (err : Nat → Bool) (coll : List Doc) :
    List Doc × List LogEntry × Bool :=
  let parsed := parseJSON jp fs (JSON_DIR ++ "/" ++ fileName)
  let records := parsed.1
  if records.length = 0 then
    (coll, .seeding collName :: parsed.2 ++ [.noRecords collName], false)
  else
    let res := seedLoop collName keyField setDoc err records 0 coll
    if res.2.2.2 then
      (res.1, .seeding collName :: parsed.2 ++ res.2.2.1, true)
    else
      (res.1, .seeding collName :: parsed.2 ++ res.2.2.1 ++
        [.summary collName res.2.1 records.length], false)

/-- `seedCounter`: upserts `Counter.json` records by `key`. -/
def seedCounter (now : Int) (jp : JsonParse) (fs : FileSys) (err : Nat → Bool)
    (coll : List Doc) : List Doc × List LogEntry × Bool :=
  seedStep "Counter" "Counter.json" "key" (counterSetDoc now) jp fs err coll

/-- `seedDepartmentParent`: upserts by `departmentId`. -/
def seedDepartmentParent (now : Int) (jp : JsonParse) (fs : FileSys) (err : Nat → Bool)
    (coll : List Doc) : List Doc × List LogEntry × Bool :=
  seedStep "DepartmentParent" "DepartmentParent.json" "departmentId"
    (departmentParentSetDoc now) jp fs err coll

/-- `seedDepartmentChild`: upserts by `childDeptId`. -/
def seedDepartmentChild (now : Int) (jp : JsonParse) (fs : FileSys) (err : Nat → Bool)
    (coll : List Doc) : List Doc × List LogEntry × Bool :=
  seedStep "DepartmentChild" "DepartmentChild.json" "childDeptId"
    (departmentChildSetDoc now) jp fs err coll

/-- `seedEmployee`: upserts by `employeeId`. -/
def seedEmployee (now : Int) (jp : JsonParse) (fs : FileSys) (err : Nat → Bool)
    (coll : List Doc) : List Doc × List LogEntry × Bool :=
  seedStep "Employee" "Employee.json" "employeeId" (employeeSetDoc now) jp fs err coll

/-- `seedProject`: upserts by `projectId`. -/
def seedProject (now : Int) (jp : JsonParse) (fs : FileSys) (err : Nat → Bool)
    (coll : List Doc) : List Doc × List LogEntry × Bool :=
  seedStep "Project" "Project.json" "projectId" (projectSetDoc now) jp fs err coll

/-- `seedProjectEmployee`: upserts by `empProjectId`. -/
def seedProjectEmployee (now : Int) (jp : JsonParse) (fs : FileSys) (err : Nat → Bool)
    (coll : List Doc) : List Doc × List LogEntry × Bool :=
  seedStep "ProjectEmployee" "ProjectEmployee.json" "empProjectId"
    (projectEmployeeSetDoc now) jp fs err coll

/-- The database: one list of documents per collection touched by the seed
script. -/
structure DB where
  counter : List Doc
  departmentParent : List Doc
  departmentChild : List Doc
  employee : List Doc
  project : List Doc
  projectEmployee : List Doc
deriving DecidableEq

/-- Per-collection `updateOne` failure oracles for one run: whether the
upsert of the record at a given index throws. -/
structure ErrOracles where
  counter : Nat → Bool
  departmentParent : Nat → Bool
  departmentChild : Nat → Bool
  employee : Nat → Bool
  project : Nat → Bool
  projectEmployee : Nat → Bool

/-- The oracle of a run in which no `updateOne` fails. -/
def noErr : ErrOracles :=
  ⟨fun _ => false, fun _ => false, fun _ => false, fun _ => false, fun _ => false,
   fun _ => false⟩

/-- The six seed steps of `main`, run in source order; an aborting step (a
rejected `seedX(db)` promise) stops the sequence there — collections already
written keep their writes, later collections are untouched — and the error
propagates (last component `true`). -/
def seedAll (now : Int) (jp : JsonParse) (fs : FileSys) (eo : ErrOracles) (db : DB) :
    DB × List LogEntry × Bool :=
  let c := seedCounter now jp fs eo.counter db.counter
  if c.2.2 then
    (⟨c.1, db.departmentParent, db.departmentChild, db.employee, db.project,
      db.projectEmployee⟩, c.2.1, true)
  else
    let dp := seedDepartmentParent now jp fs eo.departmentParent db.departmentParent
    if dp.2.2 then
      (⟨c.1, dp.1, db.departmentChild, db.employee, db.project,
        db.projectEmployee⟩, c.2.1 ++ dp.2.1, true)
    else
      let dc := seedDepartmentChild now jp fs eo.departmentChild db.departmentChild
      if dc.2.2 then
        (⟨c.1, dp.1, dc.1, db.employee, db.project, db.projectEmployee⟩,
          c.2.1 ++ dp.2.1 ++ dc.2.1, true)
      else
        let e := seedEmployee now jp fs eo.employee db.employee
        if e.2.2 then
          (⟨c.1, dp.1, dc.1, e.1, db.project, db.projectEmployee⟩,
            c.2.1 ++ dp.2.1 ++ dc.2.1 ++ e.2.1, true)
        else
          let p := seedProject now jp fs eo.project db.project
          if p.2.2 then
            (⟨c.1, dp.1, dc.1, e.1, p.1, db.projectEmployee⟩,
              c.2.1 ++ dp.2.1 ++ dc.2.1 ++ e.2.1 ++ p.2.1, true)
          else
            let pe := seedProjectEmployee now jp fs eo.projectEmployee
              db.projectEmployee
            (⟨c.1, dp.1, dc.1, e.1, p.1, pe.1⟩,
              c.2.1 ++ dp.2.1 ++ dc.2.1 ++ e.2.1 ++ p.2.1 ++ pe.2.1, pe.2.2)

/-- Operations performed on the MongoDB client object. -/
inductive ClientEvent where
  | connect
  | close
deriving DecidableEq

/-- `main` of the seed script: connect (the oracle `connectErr` says whether
`client.connect()` throws), run the six seed steps, and — on both the
successful path and every failure path (connect error or a seed-step abort),
via `finally` — close the client; a failure is logged by the catch block and
rethrown (returned as the fourth component). -/
def mainRun (connectErr : Option String) (now : Int) (jp : JsonParse) (fs : FileSys)
    (eo : ErrOracles) (db : DB) : DB × List ClientEvent × List LogEntry × Option String :=
  match connectErr with
  | some e => (db, [.connect, .close], [.errorSeeding], some e)
  | none =>
    let res := seedAll now jp fs eo db
    (res.1, [.connect, .close],
      .connected :: res.2.1 ++ [if res.2.2 then .errorSeeding else .seededOk],
      if res.2.2 then some "TypeError" else none)

/-- The Vercel serverless adapter (`api` entry point). -/
structure JsError where
  message : String
deriving DecidableEq

/-- What the adapter does with the HTTP response. -/
inductive HandlerOutcome (α : Type) where
  | ok (r : α)
  | errorResponse (status : Nat) (contentType : String) (body : JValue)

/-- The Vercel `handler`: forward the request to
`handleEmployeeManagementRequest` and return its result unchanged; if it
throws, respond 500 with content type `application/json` and the JSON body
built from the fixed error string and the exception's message. -/
def vercelHandler {Req α : Type} (inner : Req → Except JsError α) (req : Req) :
    HandlerOutcome α :=
  match inner req with
  | .ok r => .ok r
  | .error e =>
    .errorResponse 500 "application/json"
      (.obj (.cons "error" (.str "Internal server error")
        (.cons "message" (.str e.message) .nil)))

/-- Iterated application of `$set` documents to one stored document. -/
def foldSets (us : List (JValue × Doc)) (d : Doc) : Doc :=
  us.foldl (fun x u => applySet u.2 x) d

/-- Well-formedness of a batch of upserts: every `$set` document has the
same field-name list `K` and carries the key field `k` with the filter's
value (which holds for each seed function by construction). -/
def goodUps (k : String) (K : List String) (us : List (JValue × Doc)) : Prop :=
  ∀ u ∈ us, keysOf u.2 = K ∧ lookupField k u.2 = some u.1

/-- Whether a record carries a truthy property named `k`. -/
def hasTruthy (r : JValue) (k : String) : Bool :=
  match getF r k with
  | some v => jsTruthy v
  | none => false

/-- At most one document per business-key value in a collection: any two
documents either disagree on the key field or the first lacks it. -/
def UniqueKey (k : String) (c : List Doc) : Prop :=
  c.Pairwise (fun d1 d2 => lookupField k d1 = none ∨ lookupField k d1 ≠ lookupField k d2)

/-- The environment of one invocation of the seed script. -/
structure RunParams where
  connectErr : Option String
  now : Int
  jp : JsonParse
  fs : FileSys
  eo : ErrOracles

/-- Any number of seed runs, applied in order to a database state. -/
def runMany (runs : List RunParams) (db : DB) : DB :=
  runs.foldl (fun db p => (mainRun p.connectErr p.now p.jp p.fs p.eo db).1) db

/-- Business-key uniqueness in every collection. -/
def DBUnique (db : DB) : Prop :=
  UniqueKey "key" db.counter ∧ UniqueKey "departmentId" db.departmentParent ∧
  UniqueKey "childDeptId" db.departmentChild ∧ UniqueKey "employeeId" db.employee ∧
  UniqueKey "projectId" db.project ∧ UniqueKey "empProjectId" db.projectEmployee

/-- The six export files read by `main`, in seed order. -/
def seedFiles : List String :=
  ["Counter.json", "DepartmentParent.json", "DepartmentChild.json", "Employee.json",
   "Project.json", "ProjectEmployee.json"]

/-- Every record read from any of the export files carries truthy
`createdAt` and `updatedAt` properties, so no stored field defaults to the
current run time. -/
def timestampsPresent (jp : JsonParse) (fs : FileSys) : Prop :=
  ∀ fn ∈ seedFiles, ∀ r ∈ (parseJSON jp fs (JSON_DIR ++ "/" ++ fn)).1,
    hasTruthy r "createdAt" = true ∧ hasTruthy r "updatedAt" = true

/-- An empty database. -/
def dbEmpty : DB := ⟨[], [], [], [], [], []⟩

/-- Fixture: only `Counter.json` exists. -/
def counterOnlyFS (content : String) : FileSys :=
  fun p => if p = JSON_DIR ++ "/" ++ "Counter.json" then some content else none

/-- Fixture: a `JSON.parse` that recognizes exactly one input. -/
def singleJP (content : String) (j : JValue) : JsonParse :=
  fun c => if c = content then some j else none

/-- Fixture: one Counter record carrying its timestamps. -/
def tsCounterRecord : JValue :=
  .obj (.ofList [("key", .str "employeeId"), ("value", .num 7),
    ("createdAt", .str "2024-10-04T19:48:57.118Z"),
    ("updatedAt", .str "2024-10-04T19:48:57.118Z")])

/-- Fixture: one Counter record lacking `createdAt`/`updatedAt`. -/
def bareCounterRecord : JValue :=
  .obj (.ofList [("key", .str "employeeId"), ("value", .num 7)])

/-- Fixture: only `Employee.json` exists, holding two records. -/
def employeeOnlyFS : FileSys :=
  fun p => if p = JSON_DIR ++ "/" ++ "Employee.json" then some "export" else none

/-- Fixture: the parsed two-record employee export. -/
def twoEmployeeJP : JsonParse :=
  singleJP "export"
    (.arr (.cons (.obj (.ofList [("employeeId", .str "E1"), ("employeeName", .str "A")]))
      (.cons (.obj (.ofList [("employeeId", .str "E2"), ("employeeName", .str "B")]))
        .nil)))

/-- Fixture: an employee export with a JSON null between two records. -/
def nullRecordJP : JsonParse :=
  singleJP "export"
    (.arr (.cons (.obj (.ofList [("employeeId", .str "E1")]))
      (.cons .null
        (.cons (.obj (.ofList [("employeeId", .str "E2")])) .nil))))

theorem lookupField_filter_ne {k k2 : String} (h : k ≠ k2) (f : Doc) :
    lookupField k (f.filter (fun p => p.1 ≠ k2)) = lookupField k f := by
  induction f with
  | nil => rfl
  | cons p f ih =>
    obtain ⟨k1, v⟩ := p
    by_cases h1 : k1 = k2
    · subst h1
      simp only [List.filter_cons, decide_eq_true_eq]
      rw [if_neg (by simp)]
      rw [ih, lookupField, if_neg (fun he => h he.symm)]
    · simp only [List.filter_cons, decide_eq_true_eq]
      rw [if_pos (by simpa using h1)]
      by_cases h2 : k1 = k
      · subst h2; rw [lookupField, if_pos rfl, lookupField, if_pos rfl]
      · rw [lookupField, if_neg h2, lookupField, if_neg h2, ih]

theorem keysOf_filter (k : String) (f : Doc) :
    keysOf (f.filter (fun p => p.1 ≠ k)) = (keysOf f).filter (fun s => s ≠ k) := by
  induction f with
  | nil => rfl
  | cons p f ih =>
    obtain ⟨k1, v⟩ := p
    by_cases h1 : k1 = k
    · subst h1
      simp only [keysOf, List.filter_cons, decide_eq_true_eq, List.map_cons]
      rw [if_neg (by simp), if_neg (by simp)]
      exact ih
    · simp only [keysOf, List.filter_cons, decide_eq_true_eq, List.map_cons]
      rw [if_pos (by simpa using h1), if_pos (by simpa using h1)]
      simp only [keysOf] at ih
      simpa using congrArg (List.cons k1) ih

theorem mem_keysOf_of_lookupField {k : String} {f : Doc} {v : JValue}
    (h : lookupField k f = some v) : k ∈ keysOf f := by
  induction f with
  | nil => exact absurd h (by simp [lookupField])
  | cons p f ih =>
    obtain ⟨k1, w⟩ := p
    by_cases h1 : k1 = k
    · subst h1; simp [keysOf]
    · rw [lookupField, if_neg h1] at h
      simp only [keysOf, List.map_cons, List.mem_cons]
      exact .inr (ih h)

theorem lookupField_eq_none_of_not_mem {k : String} {f : Doc} (h : k ∉ keysOf f) :
    lookupField k f = none := by
  induction f with
  | nil => rfl
  | cons p f ih =>
    obtain ⟨k1, w⟩ := p
    simp only [keysOf, List.map_cons, List.mem_cons, not_or] at h
    rw [lookupField, if_neg (fun he => h.1 he.symm)]
    exact ih h.2

theorem exists_lookupField_of_mem_keysOf {k : String} {f : Doc} (h : k ∈ keysOf f) :
    ∃ v, lookupField k f = some v := by
  induction f with
  | nil => exact absurd h (by simp [keysOf])
  | cons p f ih =>
    obtain ⟨k1, w⟩ := p
    by_cases h1 : k1 = k
    · subst h1; exact ⟨w, by rw [lookupField, if_pos rfl]⟩
    · rw [lookupField, if_neg h1]
      rcases List.mem_cons.mp h with h2 | h2
      · exact absurd h2.symm h1
      · exact ih h2

theorem filter_ne_eq_self_of_not_mem {k : String} {f : Doc} (h : k ∉ keysOf f) :
    f.filter (fun p => p.1 ≠ k) = f := by
  induction f with
  | nil => rfl
  | cons p f ih =>
    obtain ⟨k1, w⟩ := p
    simp only [keysOf, List.map_cons, List.mem_cons, not_or] at h
    rw [List.filter_cons, if_pos (by simpa using fun he => h.1 he.symm), ih h.2]

theorem lookupField_applySet {k : String} {f : Doc} (hmem : k ∈ keysOf f) :
    ∀ d, lookupField k (applySet f d) = lookupField k f := by
  intro d
  induction d generalizing f with
  | nil => rfl
  | cons p d ih =>
    obtain ⟨k2, w⟩ := p
    by_cases h2 : k2 = k
    · subst h2
      rw [applySet, lookupField, if_pos rfl]
      obtain ⟨v, hv⟩ := exists_lookupField_of_mem_keysOf hmem
      rw [hv]; rfl
    · rw [applySet, lookupField, if_neg h2]
      have hmem2 : k ∈ keysOf (f.filter (fun p => p.1 ≠ k2)) := by
        rw [keysOf_filter]
        exact List.mem_filter.mpr ⟨hmem, by simpa using fun he => h2 he.symm⟩
      rw [ih hmem2, lookupField_filter_ne (fun he => h2 he.symm)]

theorem applySet_keys_absorb {f1 f2 : Doc} (hk : keysOf f1 = keysOf f2)
    (hnd : (keysOf f2).Nodup) : ∀ d, applySet f2 (applySet f1 d) = applySet f2 d := by
  intro d
  induction d generalizing f1 f2 with
  | nil =>
    show applySet f2 (applySet f1 []) = applySet f2 []
    rw [applySet, applySet]
    induction f1 generalizing f2 with
    | nil =>
      have : keysOf f2 = [] := hk ▸ rfl
      have hf2 : f2 = [] := by
        cases f2 with
        | nil => rfl
        | cons q f2 => exact absurd this (by simp [keysOf])
      rw [hf2]; rfl
    | cons p f1 ih1 =>
      obtain ⟨k1, v1⟩ := p
      cases f2 with
      | nil => exact absurd hk.symm (by simp [keysOf])
      | cons q f2 =>
        obtain ⟨k2, v2⟩ := q
        simp only [keysOf, List.map_cons, List.cons.injEq] at hk
        obtain ⟨hk12, hktl⟩ := hk
        subst hk12
        simp only [keysOf, List.map_cons, List.nodup_cons] at hnd
        rw [applySet, lookupField, if_pos rfl]
        have hfil : (((k1, v2) :: f2).filter (fun p => p.1 ≠ k1)) = f2 := by
          rw [List.filter_cons, if_neg (by simp)]
          exact filter_ne_eq_self_of_not_mem (by simpa [keysOf, hktl] using hnd.1)
        rw [hfil]
        simp only [Option.getD_some]
        rw [ih1 hktl (by simpa [keysOf] using hnd.2)]
  | cons p d ih =>
    obtain ⟨k0, w⟩ := p
    rw [applySet, applySet, applySet]
    have hlook : ((lookupField k0 f2).getD ((lookupField k0 f1).getD w)) =
        (lookupField k0 f2).getD w := by
      by_cases hm : k0 ∈ keysOf f2
      · obtain ⟨v, hv⟩ := exists_lookupField_of_mem_keysOf hm
        rw [hv]; rfl
      · rw [lookupField_eq_none_of_not_mem hm,
          lookupField_eq_none_of_not_mem (fun hc => hm (hk ▸ hc))]
        rfl
    rw [hlook]
    refine congrArg (List.cons _) ?_
    exact ih (by rw [keysOf_filter, keysOf_filter, hk])
      (by rw [keysOf_filter]; exact hnd.filter _)

theorem applySet_self_absorb {f : Doc} (hnd : (keysOf f).Nodup) (d : Doc) :
    applySet f (applySet f d) = applySet f d :=
  applySet_keys_absorb rfl hnd d

theorem lookupField_applySet_key {k : String} {f : Doc} {v : JValue}
    (hf : lookupField k f = some v) (d : Doc) :
    lookupField k (applySet f d) = some v := by
  rw [lookupField_applySet (mem_keysOf_of_lookupField hf)]; exact hf

theorem upsertDoc_same_key_absorb {k : String} {v : JValue} {f1 f2 : Doc}
    (h1 : lookupField k f1 = some v) (hk : keysOf f1 = keysOf f2)
    (hnd : (keysOf f2).Nodup) (c : List Doc) :
    upsertDoc k v f2 (upsertDoc k v f1 c) = upsertDoc k v f2 c := by
  induction c with
  | nil =>
    simp only [upsertDoc]
    rw [if_pos (lookupField_applySet_key h1 _), applySet_keys_absorb hk hnd]
  | cons d ds ih =>
    by_cases hm : lookupField k d = some v
    · rw [upsertDoc, if_pos hm, upsertDoc, if_pos (lookupField_applySet_key h1 d),
        upsertDoc, if_pos hm, applySet_keys_absorb hk hnd]
    · rw [upsertDoc, if_neg hm, upsertDoc, if_neg hm, upsertDoc, if_neg hm, ih]

theorem mem_upsertDoc {k : String} {v : JValue} {f : Doc}
    (hf : lookupField k f = some v) {c : List Doc} {d2 : Doc}
    (h : d2 ∈ upsertDoc k v f c) : d2 ∈ c ∨ lookupField k d2 = some v := by
  induction c with
  | nil =>
    rw [upsertDoc] at h
    rcases List.mem_singleton.mp h with rfl
    exact .inr (lookupField_applySet_key hf _)
  | cons d ds ih =>
    rw [upsertDoc] at h
    by_cases hm : lookupField k d = some v
    · rw [if_pos hm] at h
      rcases List.mem_cons.mp h with rfl | h2
      · exact .inr (lookupField_applySet_key hf d)
      · exact .inl (List.mem_cons_of_mem d h2)
    · rw [if_neg hm] at h
      rcases List.mem_cons.mp h with rfl | h2
      · exact .inl (List.mem_cons_self _ _)
      · rcases ih h2 with h3 | h3
        · exact .inl (List.mem_cons_of_mem d h3)
        · exact .inr h3

theorem runUpserts_nil_batch (k : String) (c : List Doc) : runUpserts k [] c = c := rfl

theorem runUpserts_cons (k : String) (u : JValue × Doc) (us : List (JValue × Doc))
    (c : List Doc) : runUpserts k (u :: us) c = runUpserts k us (upsertDoc k u.1 u.2 c) :=
  rfl

theorem goodUps_of_cons {k : String} {K : List String} {u : JValue × Doc}
    {us : List (JValue × Doc)} (h : goodUps k K (u :: us)) : goodUps k K us :=
  fun x hx => h x (List.mem_cons_of_mem u hx)

theorem goodUps_filter {k : String} {K : List String} {us : List (JValue × Doc)}
    (h : goodUps k K us) (p : JValue × Doc → Bool) : goodUps k K (us.filter p) :=
  fun x hx => h x (List.mem_filter.mp hx).1

theorem foldSets_applySet_absorb {k : String} {K : List String} {g : Doc}
    (hg : keysOf g = K) (hnd : K.Nodup) :
    ∀ (us : List (JValue × Doc)), goodUps k K us →
      ∀ d, applySet g (foldSets us d) = applySet g d := by
  intro us
  induction us with
  | nil => intro _ d; rfl
  | cons u us ih =>
    intro hus d
    have hu := hus u (List.mem_cons_self _ _)
    show applySet g (foldSets us (applySet u.2 d)) = applySet g d
    rw [ih (goodUps_of_cons hus) (applySet u.2 d),
      applySet_keys_absorb (hu.1.trans hg.symm) (hg ▸ hnd)]

theorem foldSets_idem {k : String} {K : List String} (hnd : K.Nodup)
    {us : List (JValue × Doc)} (hus : goodUps k K us) (d : Doc) :
    foldSets us (foldSets us d) = foldSets us d := by
  cases us with
  | nil => rfl
  | cons u us =>
    have hu := hus u (List.mem_cons_self _ _)
    show foldSets us (applySet u.2 (foldSets us (applySet u.2 d))) =
      foldSets us (applySet u.2 d)
    rw [foldSets_applySet_absorb hu.1 (hu.1 ▸ hnd) us (goodUps_of_cons hus),
      applySet_self_absorb (hu.1 ▸ hnd)]

theorem lookupField_foldSets {k : String} {w : Option JValue}
    {us : List (JValue × Doc)}
    (hus : ∀ u ∈ us, lookupField k u.2 = some u.1 ∧ some u.1 = w) :
    ∀ d, lookupField k d = w → lookupField k (foldSets us d) = w := by
  induction us with
  | nil => intro d hd; exact hd
  | cons u us ih =>
    intro d hd
    have hu := hus u (List.mem_cons_self _ _)
    show lookupField k (foldSets us (applySet u.2 d)) = w
    exact ih (fun x hx => hus x (List.mem_cons_of_mem u hx)) _
      ((lookupField_applySet_key hu.1 d).trans hu.2)

theorem runUpserts_cons_doc {k : String} {K : List String} :
    ∀ (us : List (JValue × Doc)), goodUps k K us → ∀ (d : Doc) (ds : List Doc),
      runUpserts k us (d :: ds) =
        foldSets (us.filter (fun u => lookupField k d = some u.1)) d ::
          runUpserts k (us.filter (fun u => lookupField k d ≠ some u.1)) ds := by
  intro us
  induction us with
  | nil => intro _ d ds; rfl
  | cons u us ih =>
    intro hus d ds
    have hu := hus u (List.mem_cons_self _ _)
    rw [runUpserts_cons]
    by_cases hm : lookupField k d = some u.1
    · rw [upsertDoc, if_pos hm]
      have hd2 : lookupField k (applySet u.2 d) = lookupField k d :=
        (lookupField_applySet_key hu.2 d).trans hm.symm
      rw [ih (goodUps_of_cons hus) (applySet u.2 d) ds]
      simp only [hd2]
      rw [List.filter_cons, List.filter_cons]
      rw [if_pos (by simpa using hm), if_neg (by simpa using hm)]
      rfl
    · rw [upsertDoc, if_neg hm]
      rw [ih (goodUps_of_cons hus) d (upsertDoc k u.1 u.2 ds)]
      rw [List.filter_cons, List.filter_cons]
      rw [if_neg (by simpa using hm), if_pos (by simpa using hm)]
      rfl

theorem runUpserts_idem_nil {k : String} {K : List String} (hnd : K.Nodup) :
    ∀ (n : Nat) (us : List (JValue × Doc)), us.length ≤ n → goodUps k K us →
      runUpserts k us (runUpserts k us []) = runUpserts k us [] := by
  intro n
  induction n with
  | zero =>
    intro us hlen _
    have : us = [] := List.length_eq_zero.mp (Nat.le_zero.mp hlen)
    subst this; rfl
  | succ n ih =>
    intro us hlen hus
    cases us with
    | nil => rfl
    | cons u us' =>
      have hu := hus u (List.mem_cons_self _ _)
      have hus' := goodUps_of_cons hus
      have hA : lookupField k (applySet u.2 [(k, u.1)]) = some u.1 :=
        lookupField_applySet_key hu.2 _
      have step1 : runUpserts k (u :: us') [] =
          runUpserts k us' [applySet u.2 [(k, u.1)]] := rfl
      rw [step1, runUpserts_cons_doc us' hus' (applySet u.2 [(k, u.1)]) []]
      simp only [hA]
      rw [runUpserts_cons]
      have hM : goodUps k K (us'.filter (fun x => some u.1 = some x.1)) :=
        goodUps_filter hus' _
      have hFA : lookupField k
          (foldSets (us'.filter (fun x => some u.1 = some x.1))
            (applySet u.2 [(k, u.1)])) = some u.1 := by
        refine lookupField_foldSets ?_ _ hA
        intro x hx
        have hp : some u.1 = some x.1 := by simpa using (List.mem_filter.mp hx).2
        exact ⟨(hM x hx).2, hp.symm⟩
      rw [upsertDoc, if_pos hFA]
      have hd2 : lookupField k
          (applySet u.2 (foldSets (us'.filter (fun x => some u.1 = some x.1))
            (applySet u.2 [(k, u.1)]))) = some u.1 :=
        lookupField_applySet_key hu.2 _
      rw [runUpserts_cons_doc us' hus' _ _]
      simp only [hd2]
      have hhead : foldSets (us'.filter (fun x => some u.1 = some x.1))
          (applySet u.2 (foldSets (us'.filter (fun x => some u.1 = some x.1))
            (applySet u.2 [(k, u.1)]))) =
          foldSets (us'.filter (fun x => some u.1 = some x.1))
            (applySet u.2 [(k, u.1)]) := by
        rw [foldSets_applySet_absorb hu.1 hnd _ hM,
          applySet_self_absorb (show (keysOf u.2).Nodup by rw [hu.1]; exact hnd)]
      rw [hhead]
      have htail : runUpserts k (us'.filter (fun x => some u.1 ≠ some x.1))
          (runUpserts k (us'.filter (fun x => some u.1 ≠ some x.1)) []) =
          runUpserts k (us'.filter (fun x => some u.1 ≠ some x.1)) [] := by
        refine ih _ ?_ (goodUps_filter hus' _)
        calc (us'.filter (fun x => some u.1 ≠ some x.1)).length
            ≤ us'.length := List.length_filter_le _ _
          _ ≤ n := Nat.le_of_succ_le_succ hlen
      rw [htail]

theorem runUpserts_idem {k : String} {K : List String} (hnd : K.Nodup) :
    ∀ (c : List Doc) (us : List (JValue × Doc)), goodUps k K us →
      runUpserts k us (runUpserts k us c) = runUpserts k us c := by
  intro c
  induction c with
  | nil => intro us hus; exact runUpserts_idem_nil hnd us.length us le_rfl hus
  | cons d ds ih =>
    intro us hus
    rw [runUpserts_cons_doc us hus d ds]
    have hw : lookupField k
        (foldSets (us.filter (fun x => lookupField k d = some x.1)) d) =
        lookupField k d := by
      refine lookupField_foldSets ?_ _ rfl
      intro x hx
      have hp : lookupField k d = some x.1 := by
        simpa using (List.mem_filter.mp hx).2
      exact ⟨(hus x (List.mem_filter.mp hx).1).2, hp.symm⟩
    rw [runUpserts_cons_doc us hus _ _]
    simp only [hw]
    rw [foldSets_idem hnd (goodUps_filter hus _),
      ih _ (goodUps_filter hus _)]

theorem seedLoop_noerr (cn kf : String) (sd : JValue → Doc) :
    ∀ (recs : List JValue) (i : Nat) (coll : List Doc),
      (∀ r ∈ recs, r ≠ JValue.null) →
      seedLoop cn kf sd (fun _ => false) recs i coll =
        (runUpserts kf (recs.map (fun r => (raw r kf, sd r))) coll, recs.length, [],
          false) := by
  intro recs
  induction recs with
  | nil => intro i coll _; rfl
  | cons r rs ih =>
    intro i coll hnn
    rw [seedLoop, if_neg (hnn r (List.mem_cons_self _ _)), if_neg (by simp)]
    simp only [ih (i + 1) _ (fun x hx => hnn x (List.mem_cons_of_mem r hx))]
    rfl

theorem seedLoop_no_abort (cn kf : String) (sd : JValue → Doc) (err : Nat → Bool) :
    ∀ (recs : List JValue) (i : Nat) (coll : List Doc),
      (∀ r ∈ recs, r ≠ JValue.null) →
      (seedLoop cn kf sd err recs i coll).2.2.2 = false := by
  intro recs
  induction recs with
  | nil => intro i coll _; rfl
  | cons r rs ih =>
    intro i coll hnn
    rw [seedLoop, if_neg (hnn r (List.mem_cons_self _ _))]
    have htl := fun x hx => hnn x (List.mem_cons_of_mem r hx)
    by_cases he : err i
    · rw [if_pos he]; exact ih (i + 1) coll htl
    · rw [if_neg he]; exact ih (i + 1) _ htl

theorem seedLoop_count (cn kf : String) (sd : JValue → Doc) (err : Nat → Bool) :
    ∀ (recs : List JValue) (i : Nat) (coll : List Doc),
      (∀ r ∈ recs, r ≠ JValue.null) →
      (seedLoop cn kf sd err recs i coll).2.1 +
        (seedLoop cn kf sd err recs i coll).2.2.1.length = recs.length := by
  intro recs
  induction recs with
  | nil => intro i coll _; rfl
  | cons r rs ih =>
    intro i coll hnn
    rw [seedLoop, if_neg (hnn r (List.mem_cons_self _ _))]
    have htl := fun x hx => hnn x (List.mem_cons_of_mem r hx)
    by_cases he : err i
    · rw [if_pos he]
      simpa [Nat.add_comm, Nat.add_assoc, Nat.add_left_comm] using
        congrArg Nat.succ (ih (i + 1) coll htl)
    · rw [if_neg he]
      simpa [Nat.add_comm, Nat.add_assoc, Nat.add_left_comm] using
        congrArg Nat.succ (ih (i + 1) (upsertDoc kf (raw r kf) (sd r) coll) htl)

theorem seedLoop_logs_only_recordErrors (cn kf : String) (sd : JValue → Doc)
    (err : Nat → Bool) :
    ∀ (recs : List JValue) (i : Nat) (coll : List Doc),
      ∀ l ∈ (seedLoop cn kf sd err recs i coll).2.2.1,
        ∃ r ∈ recs, l = LogEntry.recordError cn (getF r kf) := by
  intro recs
  induction recs with
  | nil => intro i coll l hl; exact absurd hl (by simp [seedLoop])
  | cons r rs ih =>
    intro i coll l hl
    rw [seedLoop] at hl
    by_cases hr : r = JValue.null
    · rw [if_pos hr] at hl
      exact absurd hl (by simp)
    · rw [if_neg hr] at hl
      by_cases he : err i
      · rw [if_pos he] at hl
        rcases List.mem_cons.mp hl with rfl | h2
        · exact ⟨r, List.mem_cons_self _ _, rfl⟩
        · obtain ⟨r2, hr2, hl2⟩ := ih (i + 1) coll l h2
          exact ⟨r2, List.mem_cons_of_mem r hr2, hl2⟩
      · rw [if_neg he] at hl
        obtain ⟨r2, hr2, hl2⟩ := ih (i + 1) _ l hl
        exact ⟨r2, List.mem_cons_of_mem r hr2, hl2⟩

theorem seedLoop_failed_record_logged (cn kf : String) (sd : JValue → Doc)
    (err : Nat → Bool) :
    ∀ (recs : List JValue) (i : Nat) (coll : List Doc),
      (∀ r ∈ recs, r ≠ JValue.null) →
      ∀ (j : Nat) (hj : j < recs.length), err (i + j) = true →
        LogEntry.recordError cn (getF (recs.get ⟨j, hj⟩) kf) ∈
          (seedLoop cn kf sd err recs i coll).2.2.1 := by
  intro recs
  induction recs with
  | nil => intro i coll _ j hj; exact absurd hj (by simp)
  | cons r rs ih =>
    intro i coll hnn j hj he
    rw [seedLoop, if_neg (hnn r (List.mem_cons_self _ _))]
    have htl := fun x hx => hnn x (List.mem_cons_of_mem r hx)
    by_cases h0 : err i
    · rw [if_pos h0]
      cases j with
      | zero => exact List.mem_cons_self _ _
      | succ j' =>
        refine List.mem_cons_of_mem _ ?_
        have := ih (i + 1) coll htl j' (Nat.lt_of_succ_lt_succ hj)
          (by simpa [Nat.add_comm, Nat.add_assoc, Nat.add_left_comm] using he)
        simpa using this
    · rw [if_neg h0]
      cases j with
      | zero => exact absurd (by simpa using he) h0
      | succ j' =>
        have := ih (i + 1) (upsertDoc kf (raw r kf) (sd r) coll) htl j'
          (Nat.lt_of_succ_lt_succ hj)
          (by simpa [Nat.add_comm, Nat.add_assoc, Nat.add_left_comm] using he)
        simpa using this

theorem upsertDoc_uniqueKey {k : String} {v : JValue} {f : Doc}
    (hf : lookupField k f = some v) {c : List Doc} (h : UniqueKey k c) :
    UniqueKey k (upsertDoc k v f c) := by
  induction c with
  | nil =>
    rw [upsertDoc]
    exact List.pairwise_singleton _ _
  | cons d ds ih =>
    rw [upsertDoc]
    rcases List.pairwise_cons.mp h with ⟨hrel, hds⟩
    by_cases hm : lookupField k d = some v
    · rw [if_pos hm]
      refine List.pairwise_cons.mpr ⟨?_, hds⟩
      intro d2 hd2
      have : lookupField k (applySet f d) = lookupField k d :=
        (lookupField_applySet_key hf d).trans hm.symm
      rw [this]
      exact hrel d2 hd2
    · rw [if_neg hm]
      refine List.pairwise_cons.mpr ⟨?_, ih hds⟩
      intro d2 hd2
      rcases mem_upsertDoc hf hd2 with h2 | h2
      · exact hrel d2 h2
      · cases hd : lookupField k d with
        | none => exact .inl rfl
        | some w =>
          refine .inr ?_
          rw [h2]
          intro hc
          rw [hc] at hd
          exact hm hd

theorem seedLoop_uniqueKey (cn kf : String) (sd : JValue → Doc) (err : Nat → Bool) :
    ∀ (recs : List JValue) (i : Nat) (coll : List Doc),
      (∀ r, lookupField kf (sd r) = some (raw r kf)) → UniqueKey kf coll →
        UniqueKey kf (seedLoop cn kf sd err recs i coll).1 := by
  intro recs
  induction recs with
  | nil => intro i coll _ h; exact h
  | cons r rs ih =>
    intro i coll hsd h
    rw [seedLoop]
    by_cases hr : r = JValue.null
    · rw [if_pos hr]; exact h
    · rw [if_neg hr]
      by_cases he : err i
      · rw [if_pos he]; exact ih (i + 1) coll hsd h
      · rw [if_neg he]
        exact ih (i + 1) _ hsd (upsertDoc_uniqueKey (hsd r) h)

theorem seedStep_uniqueKey (cn fn kf : String) (sd : JValue → Doc) (jp : JsonParse)
    (fs : FileSys) (err : Nat → Bool) (coll : List Doc)
    (hsd : ∀ r, lookupField kf (sd r) = some (raw r kf)) (h : UniqueKey kf coll) :
    UniqueKey kf (seedStep cn fn kf sd jp fs err coll).1 := by
  rw [seedStep]
  by_cases hz : (parseJSON jp fs (JSON_DIR ++ "/" ++ fn)).1.length = 0
  · rw [if_pos hz]; exact h
  · rw [if_neg hz]
    have hpres := seedLoop_uniqueKey cn kf sd err
      (parseJSON jp fs (JSON_DIR ++ "/" ++ fn)).1 0 coll hsd h
    by_cases ha : (seedLoop cn kf sd err
        (parseJSON jp fs (JSON_DIR ++ "/" ++ fn)).1 0 coll).2.2.2 = true
    · rw [if_pos ha]; exact hpres
    · rw [if_neg ha]; exact hpres

theorem dateOr_eq_of_hasTruthy {r : JValue} {k : String} (h : hasTruthy r k = true)
    (d1 d2 : JValue) : dateOr r k d1 = dateOr r k d2 := by
  unfold hasTruthy at h
  unfold dateOr
  cases hg : getF r k with
  | none => rw [hg] at h; exact absurd h (by simp)
  | some v =>
    rw [hg] at h
    have hv : jsTruthy v = true := h
    show (if jsTruthy v = true then jsNewDate v else d1) =
      if jsTruthy v = true then jsNewDate v else d2
    rw [if_pos hv, if_pos hv]

theorem counterSetDoc_time_indep {r : JValue} (h1 : hasTruthy r "createdAt" = true)
    (h2 : hasTruthy r "updatedAt" = true) (now now' : Int) :
    counterSetDoc now r = counterSetDoc now' r := by
  unfold counterSetDoc
  rw [dateOr_eq_of_hasTruthy h1 (nowDate now) (nowDate now'),
    dateOr_eq_of_hasTruthy h2 (nowDate now) (nowDate now')]

theorem departmentParentSetDoc_time_indep {r : JValue}
    (h1 : hasTruthy r "createdAt" = true) (h2 : hasTruthy r "updatedAt" = true)
    (now now' : Int) : departmentParentSetDoc now r = departmentParentSetDoc now' r := by
  unfold departmentParentSetDoc
  rw [dateOr_eq_of_hasTruthy h1 (nowDate now) (nowDate now'),
    dateOr_eq_of_hasTruthy h2 (nowDate now) (nowDate now')]

theorem departmentChildSetDoc_time_indep {r : JValue}
    (h1 : hasTruthy r "createdAt" = true) (h2 : hasTruthy r "updatedAt" = true)
    (now now' : Int) : departmentChildSetDoc now r = departmentChildSetDoc now' r := by
  unfold departmentChildSetDoc
  rw [dateOr_eq_of_hasTruthy h1 (nowDate now) (nowDate now'),
    dateOr_eq_of_hasTruthy h2 (nowDate now) (nowDate now')]

theorem employeeSetDoc_time_indep {r : JValue} (h1 : hasTruthy r "createdAt" = true)
    (h2 : hasTruthy r "updatedAt" = true) (now now' : Int) :
    employeeSetDoc now r = employeeSetDoc now' r := by
  unfold employeeSetDoc
  rw [dateOr_eq_of_hasTruthy h1 (nowDate now) (nowDate now'),
    dateOr_eq_of_hasTruthy h2 (nowDate now) (nowDate now')]

theorem projectSetDoc_time_indep {r : JValue} (h1 : hasTruthy r "createdAt" = true)
    (h2 : hasTruthy r "updatedAt" = true) (now now' : Int) :
    projectSetDoc now r = projectSetDoc now' r := by
  unfold projectSetDoc
  rw [dateOr_eq_of_hasTruthy h1 (nowDate now) (nowDate now'),
    dateOr_eq_of_hasTruthy h2 (nowDate now) (nowDate now')]

theorem projectEmployeeSetDoc_time_indep {r : JValue}
    (h1 : hasTruthy r "createdAt" = true) (h2 : hasTruthy r "updatedAt" = true)
    (now now' : Int) : projectEmployeeSetDoc now r = projectEmployeeSetDoc now' r := by
  unfold projectEmployeeSetDoc
  rw [dateOr_eq_of_hasTruthy h1 (nowDate now) (nowDate now'),
    dateOr_eq_of_hasTruthy h2 (nowDate now) (nowDate now')]

theorem seedStep_noerr_coll (cn fn kf : String) (sd : JValue → Doc) (jp : JsonParse)
    (fs : FileSys) (coll : List Doc)
    (hnn : ∀ r ∈ (parseJSON jp fs (JSON_DIR ++ "/" ++ fn)).1, r ≠ JValue.null) :
    (seedStep cn fn kf sd jp fs (fun _ => false) coll).1 =
      runUpserts kf
        ((parseJSON jp fs (JSON_DIR ++ "/" ++ fn)).1.map (fun r => (raw r kf, sd r)))
        coll := by
  rw [seedStep]
  by_cases hz : (parseJSON jp fs (JSON_DIR ++ "/" ++ fn)).1.length = 0
  · rw [if_pos hz]
    rw [List.length_eq_zero.mp hz]
    rfl
  · rw [if_neg hz]
    rw [seedLoop_noerr cn kf sd _ 0 coll hnn]
    rw [if_neg (by simp)]

theorem seedStep_no_abort (cn fn kf : String) (sd : JValue → Doc) (jp : JsonParse)
    (fs : FileSys) (err : Nat → Bool) (coll : List Doc)
    (hnn : ∀ r ∈ (parseJSON jp fs (JSON_DIR ++ "/" ++ fn)).1, r ≠ JValue.null) :
    (seedStep cn fn kf sd jp fs err coll).2.2 = false := by
  rw [seedStep]
  by_cases hz : (parseJSON jp fs (JSON_DIR ++ "/" ++ fn)).1.length = 0
  · rw [if_pos hz]
  · rw [if_neg hz]
    rw [if_neg (by
      rw [seedLoop_no_abort cn kf sd err _ 0 coll hnn]
      simp)]

theorem seedStep_idem (cn fn kf : String) (sd1 sd2 : JValue → Doc) (jp : JsonParse)
    (fs : FileSys) (coll : List Doc) (K : List String) (hnd : K.Nodup)
    (hgood : ∀ r, keysOf (sd1 r) = K ∧ lookupField kf (sd1 r) = some (raw r kf))
    (heq : ∀ r ∈ (parseJSON jp fs (JSON_DIR ++ "/" ++ fn)).1, sd1 r = sd2 r)
    (hnn : ∀ r ∈ (parseJSON jp fs (JSON_DIR ++ "/" ++ fn)).1, r ≠ JValue.null) :
    (seedStep cn fn kf sd2 jp fs (fun _ => false)
      (seedStep cn fn kf sd1 jp fs (fun _ => false) coll).1).1 =
      (seedStep cn fn kf sd1 jp fs (fun _ => false) coll).1 := by
  rw [seedStep_noerr_coll cn fn kf sd1 jp fs coll hnn,
    seedStep_noerr_coll cn fn kf sd2 jp fs _ hnn]
  have hmap : (parseJSON jp fs (JSON_DIR ++ "/" ++ fn)).1.map (fun r => (raw r kf, sd2 r)) =
      (parseJSON jp fs (JSON_DIR ++ "/" ++ fn)).1.map (fun r => (raw r kf, sd1 r)) := by
    refine List.map_congr_left ?_
    intro r hr
    rw [heq r hr]
  rw [hmap]
  refine runUpserts_idem hnd coll _ ?_
  intro u hu
  obtain ⟨r, _, rfl⟩ := List.mem_map.mp hu
  exact hgood r

theorem DB_ext {a b : DB} (h1 : a.counter = b.counter)
    (h2 : a.departmentParent = b.departmentParent)
    (h3 : a.departmentChild = b.departmentChild) (h4 : a.employee = b.employee)
    (h5 : a.project = b.project) (h6 : a.projectEmployee = b.projectEmployee) :
    a = b := by
  cases a; cases b
  dsimp at h1 h2 h3 h4 h5 h6
  rw [h1, h2, h3, h4, h5, h6]

theorem hasTruthy_null (k : String) : hasTruthy JValue.null k = false := rfl

theorem ne_null_of_hasTruthy {r : JValue} {k : String} (h : hasTruthy r k = true) :
    r ≠ JValue.null := by
  intro hr
  rw [hr, hasTruthy_null] at h
  exact Bool.false_ne_true h

theorem mainRun_db_of_no_null (now : Int) (jp : JsonParse) (fs : FileSys) (db : DB)
    (hnn : ∀ fn ∈ seedFiles, ∀ r ∈ (parseJSON jp fs (JSON_DIR ++ "/" ++ fn)).1,
      r ≠ JValue.null) :
    (mainRun none now jp fs noErr db).1 =
      ⟨(seedCounter now jp fs (fun _ => false) db.counter).1,
       (seedDepartmentParent now jp fs (fun _ => false) db.departmentParent).1,
       (seedDepartmentChild now jp fs (fun _ => false) db.departmentChild).1,
       (seedEmployee now jp fs (fun _ => false) db.employee).1,
       (seedProject now jp fs (fun _ => false) db.project).1,
       (seedProjectEmployee now jp fs (fun _ => false) db.projectEmployee).1⟩ := by
  have f1 : (seedCounter now jp fs (fun _ => false) db.counter).2.2 = false :=
    seedStep_no_abort _ _ _ _ _ _ _ _ (hnn "Counter.json" (by simp [seedFiles]))
  have f2 : (seedDepartmentParent now jp fs (fun _ => false)
      db.departmentParent).2.2 = false :=
    seedStep_no_abort _ _ _ _ _ _ _ _
      (hnn "DepartmentParent.json" (by simp [seedFiles]))
  have f3 : (seedDepartmentChild now jp fs (fun _ => false)
      db.departmentChild).2.2 = false :=
    seedStep_no_abort _ _ _ _ _ _ _ _
      (hnn "DepartmentChild.json" (by simp [seedFiles]))
  have f4 : (seedEmployee now jp fs (fun _ => false) db.employee).2.2 = false :=
    seedStep_no_abort _ _ _ _ _ _ _ _ (hnn "Employee.json" (by simp [seedFiles]))
  have f5 : (seedProject now jp fs (fun _ => false) db.project).2.2 = false :=
    seedStep_no_abort _ _ _ _ _ _ _ _ (hnn "Project.json" (by simp [seedFiles]))
  have f6 : (seedProjectEmployee now jp fs (fun _ => false)
      db.projectEmployee).2.2 = false :=
    seedStep_no_abort _ _ _ _ _ _ _ _
      (hnn "ProjectEmployee.json" (by simp [seedFiles]))
  show (seedAll now jp fs noErr db).1 = _
  simp [seedAll, noErr, f1, f2, f3, f4, f5, f6]

/-- C1 (amended): re-running the seed script over the same export files
reproduces the identical database state, for every initial state and every
pair of run times, provided every record carries truthy `createdAt` and
`updatedAt` (so no field defaults to the run's current time) and no
per-record upsert error occurs; the claim as stated — covering defaulted
`createdAt`/`updatedAt` too — fails because those defaults are the current
run time. -/
theorem main_rerun_identical (now now' : Int) (jp : JsonParse) (fs : FileSys) (db : DB)
    (h : timestampsPresent jp fs) :
    (mainRun none now' jp fs noErr (mainRun none now jp fs noErr db).1).1 =
      (mainRun none now jp fs noErr db).1 := by
  have hfile : ∀ fn, fn ∈ seedFiles →
      ∀ r ∈ (parseJSON jp fs (JSON_DIR ++ "/" ++ fn)).1,
        hasTruthy r "createdAt" = true ∧ hasTruthy r "updatedAt" = true := h
  have hnn : ∀ fn ∈ seedFiles, ∀ r ∈ (parseJSON jp fs (JSON_DIR ++ "/" ++ fn)).1,
      r ≠ JValue.null :=
    fun fn hfn r hr => ne_null_of_hasTruthy (hfile fn hfn r hr).1
  have hrw := mainRun_db_of_no_null now' jp fs (mainRun none now jp fs noErr db).1 hnn
  rw [hrw, mainRun_db_of_no_null now jp fs db hnn]
  refine DB_ext ?_ ?_ ?_ ?_ ?_ ?_
  · show (seedCounter now' jp fs (fun _ => false)
        (seedCounter now jp fs (fun _ => false) db.counter).1).1 =
      (seedCounter now jp fs (fun _ => false) db.counter).1
    refine seedStep_idem "Counter" "Counter.json" "key" (counterSetDoc now)
      (counterSetDoc now') jp fs db.counter (keysOf (counterSetDoc 0 .null))
      (by decide) (fun r => ⟨rfl, rfl⟩) ?_ (hnn "Counter.json" (by simp [seedFiles]))
    intro r hr
    have hts := hfile "Counter.json" (by simp [seedFiles]) r hr
    exact counterSetDoc_time_indep hts.1 hts.2 now now'
  · show (seedDepartmentParent now' jp fs (fun _ => false)
        (seedDepartmentParent now jp fs (fun _ => false) db.departmentParent).1).1 =
      (seedDepartmentParent now jp fs (fun _ => false) db.departmentParent).1
    refine seedStep_idem "DepartmentParent" "DepartmentParent.json" "departmentId"
      (departmentParentSetDoc now) (departmentParentSetDoc now') jp fs
      db.departmentParent (keysOf (departmentParentSetDoc 0 .null))
      (by decide) (fun r => ⟨rfl, rfl⟩) ?_
      (hnn "DepartmentParent.json" (by simp [seedFiles]))
    intro r hr
    have hts := hfile "DepartmentParent.json" (by simp [seedFiles]) r hr
    exact departmentParentSetDoc_time_indep hts.1 hts.2 now now'
  · show (seedDepartmentChild now' jp fs (fun _ => false)
        (seedDepartmentChild now jp fs (fun _ => false) db.departmentChild).1).1 =
      (seedDepartmentChild now jp fs (fun _ => false) db.departmentChild).1
    refine seedStep_idem "DepartmentChild" "DepartmentChild.json" "childDeptId"
      (departmentChildSetDoc now) (departmentChildSetDoc now') jp fs
      db.departmentChild (keysOf (departmentChildSetDoc 0 .null))
      (by decide) (fun r => ⟨rfl, rfl⟩) ?_
      (hnn "DepartmentChild.json" (by simp [seedFiles]))
    intro r hr
    have hts := hfile "DepartmentChild.json" (by simp [seedFiles]) r hr
    exact departmentChildSetDoc_time_indep hts.1 hts.2 now now'
  · show (seedEmployee now' jp fs (fun _ => false)
        (seedEmployee now jp fs (fun _ => false) db.employee).1).1 =
      (seedEmployee now jp fs (fun _ => false) db.employee).1
    refine seedStep_idem "Employee" "Employee.json" "employeeId"
      (employeeSetDoc now) (employeeSetDoc now') jp fs db.employee
      (keysOf (employeeSetDoc 0 .null)) (by decide) (fun r => ⟨rfl, rfl⟩) ?_
      (hnn "Employee.json" (by simp [seedFiles]))
    intro r hr
    have hts := hfile "Employee.json" (by simp [seedFiles]) r hr
    exact employeeSetDoc_time_indep hts.1 hts.2 now now'
  · show (seedProject now' jp fs (fun _ => false)
        (seedProject now jp fs (fun _ => false) db.project).1).1 =
      (seedProject now jp fs (fun _ => false) db.project).1
    refine seedStep_idem "Project" "Project.json" "projectId"
      (projectSetDoc now) (projectSetDoc now') jp fs db.project
      (keysOf (projectSetDoc 0 .null)) (by decide) (fun r => ⟨rfl, rfl⟩) ?_
      (hnn "Project.json" (by simp [seedFiles]))
    intro r hr
    have hts := hfile "Project.json" (by simp [seedFiles]) r hr
    exact projectSetDoc_time_indep hts.1 hts.2 now now'
  · show (seedProjectEmployee now' jp fs (fun _ => false)
        (seedProjectEmployee now jp fs (fun _ => false) db.projectEmployee).1).1 =
      (seedProjectEmployee now jp fs (fun _ => false) db.projectEmployee).1
    refine seedStep_idem "ProjectEmployee" "ProjectEmployee.json" "empProjectId"
      (projectEmployeeSetDoc now) (projectEmployeeSetDoc now') jp fs
      db.projectEmployee (keysOf (projectEmployeeSetDoc 0 .null))
      (by decide) (fun r => ⟨rfl, rfl⟩) ?_
      (hnn "ProjectEmployee.json" (by simp [seedFiles]))
    intro r hr
    have hts := hfile "ProjectEmployee.json" (by simp [seedFiles]) r hr
    exact projectEmployeeSetDoc_time_indep hts.1 hts.2 now now'

theorem mainRun_preserves_DBUnique (ce : Option String) (now : Int) (jp : JsonParse)
    (fs : FileSys) (eo : ErrOracles) (db : DB) (h : DBUnique db) :
    DBUnique (mainRun ce now jp fs eo db).1 := by
  cases ce with
  | some e => exact h
  | none =>
    obtain ⟨u1, u2, u3, u4, u5, u6⟩ := h
    have p1 : UniqueKey "key" (seedCounter now jp fs eo.counter db.counter).1 :=
      seedStep_uniqueKey _ _ _ _ _ _ _ _ (fun r => rfl) u1
    have p2 : UniqueKey "departmentId" (seedDepartmentParent now jp fs
        eo.departmentParent db.departmentParent).1 :=
      seedStep_uniqueKey _ _ _ _ _ _ _ _ (fun r => rfl) u2
    have p3 : UniqueKey "childDeptId" (seedDepartmentChild now jp fs
        eo.departmentChild db.departmentChild).1 :=
      seedStep_uniqueKey _ _ _ _ _ _ _ _ (fun r => rfl) u3
    have p4 : UniqueKey "employeeId" (seedEmployee now jp fs eo.employee
        db.employee).1 :=
      seedStep_uniqueKey _ _ _ _ _ _ _ _ (fun r => rfl) u4
    have p5 : UniqueKey "projectId" (seedProject now jp fs eo.project db.project).1 :=
      seedStep_uniqueKey _ _ _ _ _ _ _ _ (fun r => rfl) u5
    have p6 : UniqueKey "empProjectId" (seedProjectEmployee now jp fs
        eo.projectEmployee db.projectEmployee).1 :=
      seedStep_uniqueKey _ _ _ _ _ _ _ _ (fun r => rfl) u6
    show DBUnique (seedAll now jp fs eo db).1
    simp only [seedAll]
    by_cases h1 : (seedCounter now jp fs eo.counter db.counter).2.2 = true
    · rw [if_pos h1]; exact ⟨p1, u2, u3, u4, u5, u6⟩
    · rw [if_neg h1]
      by_cases h2 : (seedDepartmentParent now jp fs eo.departmentParent
          db.departmentParent).2.2 = true
      · rw [if_pos h2]; exact ⟨p1, p2, u3, u4, u5, u6⟩
      · rw [if_neg h2]
        by_cases h3 : (seedDepartmentChild now jp fs eo.departmentChild
            db.departmentChild).2.2 = true
        · rw [if_pos h3]; exact ⟨p1, p2, p3, u4, u5, u6⟩
        · rw [if_neg h3]
          by_cases h4 : (seedEmployee now jp fs eo.employee db.employee).2.2 = true
          · rw [if_pos h4]; exact ⟨p1, p2, p3, p4, u5, u6⟩
          · rw [if_neg h4]
            by_cases h5 : (seedProject now jp fs eo.project db.project).2.2 = true
            · rw [if_pos h5]; exact ⟨p1, p2, p3, p4, p5, u6⟩
            · rw [if_neg h5]
              exact ⟨p1, p2, p3, p4, p5, p6⟩

/-- C6: starting from a database in which every business key identifies at
most one document per collection, any number of seed runs — whatever their
run times, export files, connection failures and per-record errors —
preserves that uniqueness: each upsert matches on the business key and never
creates a second document for an existing key. -/
theorem seed_runs_preserve_key_uniqueness (runs : List RunParams) (db : DB)
    (h : DBUnique db) : DBUnique (runMany runs db) := by
  induction runs generalizing db with
  | nil => exact h
  | cons p ps ih =>
    exact ih _ (mainRun_preserves_DBUnique p.connectErr p.now p.jp p.fs p.eo db h)

/-- C9: on every execution of `main` — successful or failing — the MongoDB
client is closed exactly once, and closing is the last client operation, so
no run ends with the connection open. -/
theorem main_closes_client_exactly_once (ce : Option String) (now : Int)
    (jp : JsonParse) (fs : FileSys) (eo : ErrOracles) (db : DB) :
    ((mainRun ce now jp fs eo db).2.1.count .close = 1) ∧
    ((mainRun ce now jp fs eo db).2.1.getLast? = some .close) := by
  cases ce <;> exact ⟨rfl, rfl⟩

/-- C4: `parseJSON` never throws: a missing file, whitespace-only content,
or a `JSON.parse` failure each produce a warning/error log and an empty
record list, and the corresponding seed step then leaves its collection
unchanged. -/
theorem parseJSON_never_throws (jp : JsonParse) (fs : FileSys) (p : String) (now : Int)
    (err : Nat → Bool) (coll : List Doc) :
    (fs p = none → parseJSON jp fs p = ([], [.warnFileNotFound p])) ∧
    (∀ content, fs p = some content → jsTrim content = "" →
      parseJSON jp fs p = ([], [.warnFileEmpty p])) ∧
    (∀ content, fs p = some content → jsTrim content ≠ "" → jp content = none →
      parseJSON jp fs p = ([], [.errorParseFile p])) ∧
    (fs (JSON_DIR ++ "/" ++ "Counter.json") = none →
      (seedCounter now jp fs err coll).1 = coll) := by
  refine ⟨?_, ?_, ?_, ?_⟩
  · intro h; simp [parseJSON, h]
  · intro content hc ht; simp [parseJSON, hc, ht]
  · intro content hc ht hj; simp [parseJSON, hc, ht, hj]
  · intro h
    show (seedStep "Counter" "Counter.json" "key" (counterSetDoc now) jp fs err coll).1 =
      coll
    simp [seedStep, parseJSON, h]

theorem roundNatToDouble_eq_of_le {m : Nat} (h : m ≤ 2 ^ 53) : roundNatToDouble m = m := by
  rw [roundNatToDouble, if_pos h]

theorem roundIntToDouble_eq_of_le {n : Int} (h : n.natAbs ≤ 2 ^ 53) :
    roundIntToDouble n = n := by
  rw [roundIntToDouble]
  by_cases hn : n < 0
  · rw [if_pos hn, roundNatToDouble_eq_of_le h]; omega
  · rw [if_neg hn, roundNatToDouble_eq_of_le h]; omega

theorem numberFromInt_eq_of_safe {n : Int} (h : n.natAbs ≤ 2 ^ 53) :
    numberFromInt n = .num n := by
  have hlt : (2 : Nat) ^ 53 < 2 ^ 1024 := Nat.pow_lt_pow_right one_lt_two (by norm_num)
  unfold numberFromInt
  rw [if_neg (by omega), roundIntToDouble_eq_of_le h, if_neg (by omega)]

theorem parse_numberLong_eq (s : String) :
    parseMongoDBExtendedJSON (.obj (.cons "$numberLong" (.str s) .nil)) =
      jsParseIntJ (.str s) := rfl

theorem parse_numberInt_eq (s : String) :
    parseMongoDBExtendedJSON (.obj (.cons "$numberInt" (.str s) .nil)) =
      jsParseIntJ (.str s) := rfl

theorem jsParseIntJ_safe {s : String} {n : Int} (h1 : jsParseInt s = some n)
    (h2 : n.natAbs ≤ 2 ^ 53) : jsParseIntJ (.str s) = .num n := by
  rw [jsParseIntJ, h1]
  show numberFromInt n = JValue.num n
  exact numberFromInt_eq_of_safe h2

theorem parseArrElems_toList :
    ∀ xs : JArr, (parseArrElems xs).toList = xs.toList.map parseMongoDBExtendedJSON
  | .nil => rfl
  | .cons x xs => by
      rw [parseArrElems, JArr.toList, JArr.toList, List.map_cons,
        parseArrElems_toList xs]

theorem parseObjFields_toList :
    ∀ ob : JObj, (parseObjFields ob).toList =
      ob.toList.map (fun p => (p.1, parseMongoDBExtendedJSON p.2))
  | .nil => rfl
  | .cons k v tl => by
      rw [parseObjFields, JObj.toList, JObj.toList, List.map_cons,
        parseObjFields_toList tl]

/-- C2 (amended): `parseMongoDBExtendedJSON` converts every Extended JSON
wrapper to its native equivalent and recurses through objects and arrays:
`$date` wrappers become the date for the payload string, `$numberLong` and
`$numberInt` wrappers become the base-10 integer parsed from the payload
whenever that integer lies in the double-exact range `natAbs ≤ 2 ^ 53`
(beyond it `parseInt` produces the nearest binary64 value, so the exact
integer is not preserved), `$oid` wrappers become the payload string, arrays
and wrapper-free objects are converted elementwise / fieldwise, and every
non-object value is returned unchanged. -/
theorem parse_extended_json_spec (s : String) (n : Int) (b : Bool) (m : Int)
    (t : String) (xs : JArr) (ob : JObj) :
    (parseMongoDBExtendedJSON (.obj (.cons "$date" (.str s) .nil)) =
      .date (.parsed s)) ∧
    (jsParseInt s = some n → n.natAbs ≤ 2 ^ 53 →
      parseMongoDBExtendedJSON (.obj (.cons "$numberLong" (.str s) .nil)) = .num n) ∧
    (jsParseInt s = some n → n.natAbs ≤ 2 ^ 53 →
      parseMongoDBExtendedJSON (.obj (.cons "$numberInt" (.str s) .nil)) = .num n) ∧
    (parseMongoDBExtendedJSON (.obj (.cons "$oid" (.str s) .nil)) = .str s) ∧
    (parseMongoDBExtendedJSON (.arr xs) = .arr (parseArrElems xs) ∧
      (parseArrElems xs).toList = xs.toList.map parseMongoDBExtendedJSON) ∧
    ((ob.hasKey "$date" || ob.hasKey "$numberLong" || ob.hasKey "$numberInt" ||
        ob.hasKey "$oid") = false →
      parseMongoDBExtendedJSON (.obj ob) = .obj (parseObjFields ob) ∧
      (parseObjFields ob).toList =
        ob.toList.map (fun p => (p.1, parseMongoDBExtendedJSON p.2))) ∧
    (parseMongoDBExtendedJSON .null = .null ∧
      parseMongoDBExtendedJSON (.bool b) = .bool b ∧
      parseMongoDBExtendedJSON (.num m) = .num m ∧
      parseMongoDBExtendedJSON (.str t) = .str t) := by
  refine ⟨rfl, ?_, ?_, rfl, ⟨rfl, parseArrElems_toList xs⟩, ?_, rfl, rfl, rfl, rfl⟩
  · intro h1 h2
    rw [parse_numberLong_eq, jsParseIntJ_safe h1 h2]
  · intro h1 h2
    rw [parse_numberInt_eq, jsParseIntJ_safe h1 h2]
  · intro hw
    simp only [Bool.or_eq_false_iff] at hw
    obtain ⟨⟨⟨w1, w2⟩, w3⟩, w4⟩ := hw
    constructor
    · rw [parseMongoDBExtendedJSON]
      simp only [w1, w2, w3, w4]
      rfl
    · exact parseObjFields_toList ob

/-- C2 counterexample: the unqualified "becomes the integer parsed from s"
fails beyond the double-exact range — the smallest unrepresentable positive
integer `2 ^ 53 + 1`, wrapped as `$numberLong`, parses to `2 ^ 53 + 1` but
is stored as the even neighbour `2 ^ 53` (`parseInt` returns a binary64
number; the tie rounds to even). -/
theorem numberLong_wrapper_not_exact_integer :
    jsParseInt "9007199254740993" = some 9007199254740993 ∧
    parseMongoDBExtendedJSON
        (.obj (.cons "$numberLong" (.str "9007199254740993") .nil)) =
      .num 9007199254740992 ∧
    (9007199254740992 : Int) ≠ 9007199254740993 := by
  refine ⟨by decide, by decide, by decide⟩

/-- C7 (amended): a `$numberLong` wrapper is converted losslessly whenever
the wrapped integer lies in the double-exact (safe-integer) range
`natAbs ≤ 2 ^ 53`; over the full 64-bit range the conversion is lossy
because `parseInt` produces a binary64 number, which rounds magnitudes
above `2 ^ 53` to the nearest representable double. -/
theorem numberLong_lossless_in_safe_range (s : String) (n : Int)
    (h1 : jsParseInt s = some n) (h2 : n.natAbs ≤ 2 ^ 53) :
    parseMongoDBExtendedJSON (.obj (.cons "$numberLong" (.str s) .nil)) = .num n := by
  rw [parse_numberLong_eq, jsParseIntJ_safe h1 h2]

/-- C7 counterexample: the largest 64-bit integer is not preserved — the
code stores the rounded double `2 ^ 63` for the string
`"9223372036854775807"` (which denotes `2 ^ 63 - 1`). -/
theorem numberLong_64bit_rounds :
    jsParseInt "9223372036854775807" = some 9223372036854775807 ∧
    parseMongoDBExtendedJSON
        (.obj (.cons "$numberLong" (.str "9223372036854775807") .nil)) =
      .num 9223372036854775808 ∧
    (9223372036854775808 : Int) ≠ 9223372036854775807 := by
  refine ⟨by decide, by decide, by decide⟩

theorem orDefault_absent {r : JValue} {k : String} (d : JValue) (h : getF r k = none) :
    orDefault r k d = d := by
  simp [orDefault, h]

theorem orDefault_falsy {r v : JValue} {k : String} (d : JValue)
    (h : getF r k = some v) (hv : jsTruthy v = false) : orDefault r k d = d := by
  simp [orDefault, h, hv]

theorem orDefault_truthy {r v : JValue} {k : String} (d : JValue)
    (h : getF r k = some v) (hv : jsTruthy v = true) : orDefault r k d = v := by
  simp [orDefault, h, hv]

theorem ifDefined_absent {r : JValue} {k : String} (d : JValue) (h : getF r k = none) :
    ifDefined r k d = d := by
  simp [ifDefined, h]

theorem ifDefined_present {r v : JValue} {k : String} (d : JValue)
    (h : getF r k = some v) : ifDefined r k d = v := by
  simp [ifDefined, h]

theorem dateOr_absent {r : JValue} {k : String} (d : JValue) (h : getF r k = none) :
    dateOr r k d = d := by
  simp [dateOr, h]

/-- C10: default coalescing distinguishes fields by operator: a present but
falsy value of a `||`-defaulted field (`allocationPct`, `tags`, `contactNo`,
`readinessScore`) is replaced by the default exactly as if absent, whereas
`Employee.isActive`, `ProjectEmployee.isActive` and `ProjectEmployee.billable`
are defaulted only on `undefined`, so a present falsy value (explicit null
or false) is stored verbatim for those fields. -/
theorem falsy_coalescing_by_operator (now : Int) (r v : JValue)
    (hv : jsTruthy v = false) :
    (getF r "allocationPct" = some v →
      lookupField "allocationPct" (projectEmployeeSetDoc now r) = some .null) ∧
    (getF r "allocationPct" = none →
      lookupField "allocationPct" (projectEmployeeSetDoc now r) = some .null) ∧
    (getF r "tags" = some v →
      lookupField "tags" (employeeSetDoc now r) = some (.arr .nil)) ∧
    (getF r "contactNo" = some v →
      lookupField "contactNo" (employeeSetDoc now r) = some .null) ∧
    (getF r "readinessScore" = some v →
      lookupField "readinessScore" (projectSetDoc now r) = some .null) ∧
    (getF r "isActive" = some v →
      lookupField "isActive" (employeeSetDoc now r) = some v) ∧
    (getF r "isActive" = some v →
      lookupField "isActive" (projectEmployeeSetDoc now r) = some v) ∧
    (getF r "billable" = some v →
      lookupField "billable" (projectEmployeeSetDoc now r) = some v) := by
  have e1 : lookupField "allocationPct" (projectEmployeeSetDoc now r) =
      some (orDefault r "allocationPct" .null) := rfl
  have e2 : lookupField "tags" (employeeSetDoc now r) =
      some (orDefault r "tags" (.arr .nil)) := rfl
  have e3 : lookupField "contactNo" (employeeSetDoc now r) =
      some (orDefault r "contactNo" .null) := rfl
  have e4 : lookupField "readinessScore" (projectSetDoc now r) =
      some (orDefault r "readinessScore" .null) := rfl
  have e5 : lookupField "isActive" (employeeSetDoc now r) =
      some (ifDefined r "isActive" (.bool true)) := rfl
  have e6 : lookupField "isActive" (projectEmployeeSetDoc now r) =
      some (ifDefined r "isActive" (.bool true)) := rfl
  have e7 : lookupField "billable" (projectEmployeeSetDoc now r) =
      some (ifDefined r "billable" .null) := rfl
  refine ⟨fun h => ?_, fun h => ?_, fun h => ?_, fun h => ?_, fun h => ?_,
    fun h => ?_, fun h => ?_, fun h => ?_⟩
  · rw [e1, orDefault_falsy _ h hv]
  · rw [e1, orDefault_absent _ h]
  · rw [e2, orDefault_falsy _ h hv]
  · rw [e3, orDefault_falsy _ h hv]
  · rw [e4, orDefault_falsy _ h hv]
  · rw [e5, ifDefined_present _ h]
  · rw [e6, ifDefined_present _ h]
  · rw [e7, ifDefined_present _ h]

/-- C3 (amended): every optional field absent from a seeded record is
stored with its documented default (empty array for list fields, true for
the two `isActive` fields, the current run time for `createdAt`/`updatedAt`,
null for the rest), and a present field is stored verbatim when its value is
truthy (for `||`-defaulted fields) or merely present (for the
strict-`undefined` fields `isActive`/`billable`); the unqualified claim
"fields present are stored with their given values" fails for present falsy
values of `||`-defaulted fields. -/
theorem seed_defaults_for_absent_fields (now : Int) (r v : JValue) :
    (getF r "tags" = none →
      lookupField "tags" (employeeSetDoc now r) = some (.arr .nil)) ∧
    (getF r "skills" = none →
      lookupField "skills" (employeeSetDoc now r) = some (.arr .nil)) ∧
    (getF r "isActive" = none →
      lookupField "isActive" (employeeSetDoc now r) = some (.bool true)) ∧
    (getF r "createdAt" = none →
      lookupField "createdAt" (employeeSetDoc now r) = some (nowDate now)) ∧
    (getF r "updatedAt" = none →
      lookupField "updatedAt" (employeeSetDoc now r) = some (nowDate now)) ∧
    (getF r "contactNo" = none →
      lookupField "contactNo" (employeeSetDoc now r) = some .null) ∧
    (getF r "managerId" = none →
      lookupField "managerId" (employeeSetDoc now r) = some .null) ∧
    (getF r "hireDate" = none →
      lookupField "hireDate" (employeeSetDoc now r) = some .null) ∧
    (getF r "isActive" = none →
      lookupField "isActive" (projectEmployeeSetDoc now r) = some (.bool true)) ∧
    (getF r "responsibilities" = none →
      lookupField "responsibilities" (projectEmployeeSetDoc now r) = some (.arr .nil)) ∧
    (getF r "billable" = none →
      lookupField "billable" (projectEmployeeSetDoc now r) = some .null) ∧
    (getF r "createdAt" = none →
      lookupField "createdAt" (projectEmployeeSetDoc now r) = some (nowDate now)) ∧
    (getF r "tags" = some v → jsTruthy v = true →
      lookupField "tags" (employeeSetDoc now r) = some v) ∧
    (getF r "contactNo" = some v → jsTruthy v = true →
      lookupField "contactNo" (employeeSetDoc now r) = some v) ∧
    (getF r "isActive" = some v →
      lookupField "isActive" (employeeSetDoc now r) = some v) ∧
    (getF r "employeeId" = some v →
      lookupField "employeeId" (employeeSetDoc now r) = some v) := by
  have e1 : lookupField "tags" (employeeSetDoc now r) =
      some (orDefault r "tags" (.arr .nil)) := rfl
  have e2 : lookupField "skills" (employeeSetDoc now r) =
      some (orDefault r "skills" (.arr .nil)) := rfl
  have e3 : lookupField "isActive" (employeeSetDoc now r) =
      some (ifDefined r "isActive" (.bool true)) := rfl
  have e4 : lookupField "createdAt" (employeeSetDoc now r) =
      some (dateOr r "createdAt" (nowDate now)) := rfl
  have e5 : lookupField "updatedAt" (employeeSetDoc now r) =
      some (dateOr r "updatedAt" (nowDate now)) := rfl
  have e6 : lookupField "contactNo" (employeeSetDoc now r) =
      some (orDefault r "contactNo" .null) := rfl
  have e7 : lookupField "managerId" (employeeSetDoc now r) =
      some (orDefault r "managerId" .null) := rfl
  have e8 : lookupField "hireDate" (employeeSetDoc now r) =
      some (dateOr r "hireDate" .null) := rfl
  have e9 : lookupField "isActive" (projectEmployeeSetDoc now r) =
      some (ifDefined r "isActive" (.bool true)) := rfl
  have e10 : lookupField "responsibilities" (projectEmployeeSetDoc now r) =
      some (orDefault r "responsibilities" (.arr .nil)) := rfl
  have e11 : lookupField "billable" (projectEmployeeSetDoc now r) =
      some (ifDefined r "billable" .null) := rfl
  have e12 : lookupField "createdAt" (projectEmployeeSetDoc now r) =
      some (dateOr r "createdAt" (nowDate now)) := rfl
  have e13 : lookupField "employeeId" (employeeSetDoc now r) =
      some (raw r "employeeId") := rfl
  refine ⟨fun h => ?_, fun h => ?_, fun h => ?_, fun h => ?_, fun h => ?_,
    fun h => ?_, fun h => ?_, fun h => ?_, fun h => ?_, fun h => ?_, fun h => ?_,
    fun h => ?_, fun h hv => ?_, fun h hv => ?_, fun h => ?_, fun h => ?_⟩
  · rw [e1, orDefault_absent _ h]
  · rw [e2, orDefault_absent _ h]
  · rw [e3, ifDefined_absent _ h]
  · rw [e4, dateOr_absent _ h]
  · rw [e5, dateOr_absent _ h]
  · rw [e6, orDefault_absent _ h]
  · rw [e7, orDefault_absent _ h]
  · rw [e8, dateOr_absent _ h]
  · rw [e9, ifDefined_absent _ h]
  · rw [e10, orDefault_absent _ h]
  · rw [e11, ifDefined_absent _ h]
  · rw [e12, dateOr_absent _ h]
  · rw [e1, orDefault_truthy _ h hv]
  · rw [e6, orDefault_truthy _ h hv]
  · rw [e3, ifDefined_present _ h]
  · rw [e13]; unfold raw; rw [h]; rfl

/-- C3 counterexample: a `ProjectEmployee` record that is present with the
(schema-valid, falsy) value `allocationPct = 0` is stored with `null`, not
with its given value. -/
theorem present_falsy_field_not_stored_verbatim :
    getF (.obj (.ofList [("empProjectId", .str "PE1"), ("projectId", .str "P1"),
        ("empId", .str "E1"), ("allocationPct", .num 0)])) "allocationPct" =
      some (.num 0) ∧
    lookupField "allocationPct"
        (projectEmployeeSetDoc 0 (.obj (.ofList [("empProjectId", .str "PE1"),
          ("projectId", .str "P1"), ("empId", .str "E1"),
          ("allocationPct", .num 0)]))) = some .null ∧
    JValue.null ≠ JValue.num 0 := by
  refine ⟨by decide, by decide, by decide⟩

theorem parseJSON_logs_nil_of_records {jp : JsonParse} {fs : FileSys} {p : String}
    (h : (parseJSON jp fs p).1 ≠ []) : (parseJSON jp fs p).2 = [] := by
  rw [parseJSON] at h ⊢
  cases hf : fs p with
  | none => rw [hf] at h; exact absurd rfl h
  | some content =>
    rw [hf] at h
    dsimp only at h ⊢
    by_cases ht : jsTrim content = ""
    · rw [if_pos ht] at h; exact absurd rfl h
    · rw [if_neg ht] at h ⊢
      cases hj : jp content with
      | none => rw [hj] at h; exact absurd rfl h
      | some data => rfl

/-- C5 (amended): within a collection's seed loop, provided no record is
JSON null, every record is attempted: an `updateOne` error on one record is
logged with that record's business key and does not stop the batch (the
success count plus the number of error logs equals the total, the log lines
are exactly the per-record errors), and the seed step reports a final
success/total summary line.  The proviso is forced: on a null record the
catch block's log interpolation itself throws, aborting the batch with no
summary. -/
theorem seed_employee_errors_contained (now : Int) (jp : JsonParse) (fs : FileSys)
    (err : Nat → Bool) (coll : List Doc)
    (hne : (parseJSON jp fs (JSON_DIR ++ "/" ++ "Employee.json")).1 ≠ [])
    (hnn : ∀ r ∈ (parseJSON jp fs (JSON_DIR ++ "/" ++ "Employee.json")).1,
      r ≠ JValue.null) :
    (seedLoop "Employee" "employeeId" (employeeSetDoc now) err
        (parseJSON jp fs (JSON_DIR ++ "/" ++ "Employee.json")).1 0 coll).2.1 +
      (seedLoop "Employee" "employeeId" (employeeSetDoc now) err
        (parseJSON jp fs (JSON_DIR ++ "/" ++ "Employee.json")).1 0 coll).2.2.1.length =
      (parseJSON jp fs (JSON_DIR ++ "/" ++ "Employee.json")).1.length ∧
    (∀ j, (hj : j < (parseJSON jp fs (JSON_DIR ++ "/" ++ "Employee.json")).1.length) →
      err j = true →
      LogEntry.recordError "Employee"
          (getF ((parseJSON jp fs (JSON_DIR ++ "/" ++ "Employee.json")).1.get ⟨j, hj⟩)
            "employeeId") ∈
        (seedLoop "Employee" "employeeId" (employeeSetDoc now) err
          (parseJSON jp fs (JSON_DIR ++ "/" ++ "Employee.json")).1 0 coll).2.2.1) ∧
    (∀ l ∈ (seedLoop "Employee" "employeeId" (employeeSetDoc now) err
        (parseJSON jp fs (JSON_DIR ++ "/" ++ "Employee.json")).1 0 coll).2.2.1,
      ∃ r ∈ (parseJSON jp fs (JSON_DIR ++ "/" ++ "Employee.json")).1,
        l = LogEntry.recordError "Employee" (getF r "employeeId")) ∧
    (seedEmployee now jp fs err coll).2.1 =
      .seeding "Employee" ::
        (seedLoop "Employee" "employeeId" (employeeSetDoc now) err
          (parseJSON jp fs (JSON_DIR ++ "/" ++ "Employee.json")).1 0 coll).2.2.1 ++
        [.summary "Employee"
          (seedLoop "Employee" "employeeId" (employeeSetDoc now) err
            (parseJSON jp fs (JSON_DIR ++ "/" ++ "Employee.json")).1 0 coll).2.1
          (parseJSON jp fs (JSON_DIR ++ "/" ++ "Employee.json")).1.length] := by
  refine ⟨seedLoop_count _ _ _ _ _ 0 _ hnn, ?_, ?_, ?_⟩
  · intro j hj he
    have := seedLoop_failed_record_logged "Employee" "employeeId" (employeeSetDoc now)
      err _ 0 coll hnn j hj (by simpa using he)
    exact this
  · exact seedLoop_logs_only_recordErrors _ _ _ _ _ 0 _
  · show (seedStep "Employee" "Employee.json" "employeeId" (employeeSetDoc now)
      jp fs err coll).2.1 = _
    rw [seedStep]
    rw [if_neg (fun hz => hne (List.length_eq_zero.mp hz))]
    rw [if_neg (by
      rw [seedLoop_no_abort "Employee" "employeeId" (employeeSetDoc now) err _ 0
        coll hnn]
      simp)]
    rw [parseJSON_logs_nil_of_records hne]
    rfl

/-- C5 counterexample: over an employee export containing a JSON null
between two records, the null record's TypeError escapes the catch block:
the batch aborts, no per-record error and no success/total summary is
logged, and the remaining record is never seeded. -/
theorem seed_batch_aborts_on_null_record :
    (seedEmployee 0 nullRecordJP employeeOnlyFS (fun _ => false) []).2.2 = true ∧
    (seedEmployee 0 nullRecordJP employeeOnlyFS (fun _ => false) []).2.1 =
      [.seeding "Employee"] ∧
    ∀ d ∈ (seedEmployee 0 nullRecordJP employeeOnlyFS (fun _ => false) []).1,
      lookupField "employeeId" d ≠ some (.str "E2") := by
  refine ⟨by decide, by decide, by decide⟩

/-- C8: the serverless entry point forwards the request and returns the
wrapped handler's result unmodified when it does not throw; when it throws,
the response has HTTP status 500, content type `application/json`, and a
body that is exactly the JSON object with the fixed error string and the
thrown exception's message. -/
theorem vercel_handler_spec {Req α : Type} (inner : Req → Except JsError α)
    (req : Req) :
    (∀ e, inner req = .error e →
      vercelHandler inner req =
        .errorResponse 500 "application/json"
          (.obj (.cons "error" (.str "Internal server error")
            (.cons "message" (.str e.message) .nil)))) ∧
    (∀ r, inner req = .ok r → vercelHandler inner req = .ok r) := by
  constructor
  · intro e he; simp [vercelHandler, he]
  · intro r hr; simp [vercelHandler, hr]

/-- C1 counterexample: over a fixed export file whose Counter record lacks
`createdAt`/`updatedAt`, a second run of `main` at a later time changes the
stored document — the defaulted timestamps take each run's current time, so
the final states of the two runs differ. -/
theorem main_rerun_differs_on_defaulted_timestamps :
    (mainRun none 1 (singleJP "c" (.arr (.cons bareCounterRecord .nil)))
        (counterOnlyFS "c") noErr
        (mainRun none 0 (singleJP "c" (.arr (.cons bareCounterRecord .nil)))
          (counterOnlyFS "c") noErr dbEmpty).1).1 ≠
      (mainRun none 0 (singleJP "c" (.arr (.cons bareCounterRecord .nil)))
        (counterOnlyFS "c") noErr dbEmpty).1 := by
  decide

/-- C1 witness: with the timestamps present in the export, a re-run at a
different time reproduces the identical database. -/
theorem main_rerun_identical_witness :
    (mainRun none 1 (singleJP "c" (.arr (.cons tsCounterRecord .nil)))
        (counterOnlyFS "c") noErr
        (mainRun none 0 (singleJP "c" (.arr (.cons tsCounterRecord .nil)))
          (counterOnlyFS "c") noErr dbEmpty).1).1 =
      (mainRun none 0 (singleJP "c" (.arr (.cons tsCounterRecord .nil)))
        (counterOnlyFS "c") noErr dbEmpty).1 :=
  main_rerun_identical 0 1 (singleJP "c" (.arr (.cons tsCounterRecord .nil)))
    (counterOnlyFS "c") dbEmpty (by unfold timestampsPresent; decide)

/-- C2 witness: the spec's own examples, through the claim theorem. -/
theorem parse_extended_json_spec_witness :
    parseMongoDBExtendedJSON (.obj (.cons "$numberInt" (.str "5") .nil)) = .num 5 ∧
    parseMongoDBExtendedJSON
        (.obj (.cons "$date" (.str "2024-10-04T19:48:57.118Z") .nil)) =
      .date (.parsed "2024-10-04T19:48:57.118Z") :=
  ⟨(parse_extended_json_spec "5" 5 true 0 "" .nil .nil).2.2.1 (by decide) (by decide),
   (parse_extended_json_spec "2024-10-04T19:48:57.118Z" 0 true 0 "" .nil .nil).1⟩

/-- C3 witness: an employee record with only its identifiers receives the
documented defaults. -/
theorem seed_defaults_witness :
    lookupField "tags"
        (employeeSetDoc 0 (.obj (.ofList [("employeeId", .str "E1")]))) =
      some (.arr .nil) ∧
    lookupField "isActive"
        (employeeSetDoc 0 (.obj (.ofList [("employeeId", .str "E1")]))) =
      some (.bool true) ∧
    lookupField "createdAt"
        (employeeSetDoc 0 (.obj (.ofList [("employeeId", .str "E1")]))) =
      some (nowDate 0) :=
  ⟨(seed_defaults_for_absent_fields 0 (.obj (.ofList [("employeeId", .str "E1")]))
      .null).1 (by decide),
   (seed_defaults_for_absent_fields 0 (.obj (.ofList [("employeeId", .str "E1")]))
      .null).2.2.1 (by decide),
   (seed_defaults_for_absent_fields 0 (.obj (.ofList [("employeeId", .str "E1")]))
      .null).2.2.2.1 (by decide)⟩

/-- C10 witness: `allocationPct = 0` is coalesced to null while an explicit
`isActive = false` is stored verbatim, on the same record. -/
theorem falsy_coalescing_witness :
    lookupField "allocationPct"
        (projectEmployeeSetDoc 0 (.obj (.ofList [("empProjectId", .str "PE1"),
          ("allocationPct", .num 0), ("isActive", .bool false)]))) = some .null ∧
    lookupField "isActive"
        (projectEmployeeSetDoc 0 (.obj (.ofList [("empProjectId", .str "PE1"),
          ("allocationPct", .num 0), ("isActive", .bool false)]))) =
      some (.bool false) :=
  ⟨(falsy_coalescing_by_operator 0 (.obj (.ofList [("empProjectId", .str "PE1"),
      ("allocationPct", .num 0), ("isActive", .bool false)])) (.num 0)
      (by decide)).1 (by decide),
   (falsy_coalescing_by_operator 0 (.obj (.ofList [("empProjectId", .str "PE1"),
      ("allocationPct", .num 0), ("isActive", .bool false)])) (.bool false)
      (by decide)).2.2.2.2.2.2.1 (by decide)⟩

/-- C4 witness: a missing file produces the warning and no records. -/
theorem parseJSON_never_throws_witness :
    parseJSON (fun _ => none) (fun _ => none) "missing.json" =
      ([], [.warnFileNotFound "missing.json"]) :=
  (parseJSON_never_throws (fun _ => none) (fun _ => none) "missing.json" 0
    (fun _ => false) []).1 rfl

/-- C5 witness: over a two-record employee export in which the first upsert
fails, the success count plus the error-log count equals the total. -/
theorem seed_employee_errors_contained_witness :
    (seedLoop "Employee" "employeeId" (employeeSetDoc 0) (fun i => i = 0)
        (parseJSON twoEmployeeJP employeeOnlyFS
          (JSON_DIR ++ "/" ++ "Employee.json")).1 0 []).2.1 +
      (seedLoop "Employee" "employeeId" (employeeSetDoc 0) (fun i => i = 0)
        (parseJSON twoEmployeeJP employeeOnlyFS
          (JSON_DIR ++ "/" ++ "Employee.json")).1 0 []).2.2.1.length =
      (parseJSON twoEmployeeJP employeeOnlyFS
        (JSON_DIR ++ "/" ++ "Employee.json")).1.length :=
  (seed_employee_errors_contained 0 twoEmployeeJP employeeOnlyFS (fun i => i = 0) []
    (by decide) (by decide)).1

/-- C6 witness: one concrete run on the empty database keeps every
business key unique. -/
theorem seed_runs_preserve_key_uniqueness_witness :
    DBUnique (runMany [⟨none, 0, singleJP "c" (.arr (.cons bareCounterRecord .nil)),
      counterOnlyFS "c", noErr⟩] dbEmpty) :=
  seed_runs_preserve_key_uniqueness
    [⟨none, 0, singleJP "c" (.arr (.cons bareCounterRecord .nil)),
      counterOnlyFS "c", noErr⟩] dbEmpty
    ⟨.nil, .nil, .nil, .nil, .nil, .nil⟩

/-- C7 witness: a `$numberLong` value inside the safe range is converted
losslessly. -/
theorem numberLong_lossless_witness :
    parseMongoDBExtendedJSON (.obj (.cons "$numberLong" (.str "1728074791") .nil)) =
      .num 1728074791 :=
  numberLong_lossless_in_safe_range "1728074791" 1728074791 (by decide) (by decide)

/-- C8 witness: a throwing handler yields the 500 JSON error response. -/
theorem vercel_handler_spec_witness :
    vercelHandler (fun _ : Unit => (Except.error ⟨"boom"⟩ : Except JsError Nat)) () =
      .errorResponse 500 "application/json"
        (.obj (.cons "error" (.str "Internal server error")
          (.cons "message" (.str "boom") .nil))) :=
  (vercel_handler_spec (fun _ : Unit => (Except.error ⟨"boom"⟩ : Except JsError Nat))
    ()).1 ⟨"boom"⟩ rfl

end EmpMgmt
